import Mathlib

/-!
Verification of the project import/reconstruction engine
(`src/renderer/editor/project/project-importer.ts`, class `ProjectImporter`).

The importer is embedded shallowly: the file system, the JSON files and the
engine-side parse calls are abstracted into an outcome oracle (`ProjectFS`);
the mutable editor scene, the console log, the overlay spinner reports and the
per-entity attempt trace are threaded through an explicit state.
Machine floats of the spinner are modelled as exact rationals.
-/

set_option maxRecDepth 4000

/-- Console log events (`editor.console.logInfo` / `logWarning` / `logError`). -/
inductive LogEvent where
  | info (msg : String)
  | warning (msg : String)
  | error (msg : String)
deriving DecidableEq

/-- `true` exactly on `LogEvent.error` events. -/
def LogEvent.isError : LogEvent → Bool
  | .error _ => true
  | _ => false

/-- Per-entity attempt events, recorded in manifest order as the pipeline walks
the entity lists.  Used to state temporal ordering between steps. -/
inductive Event where
  | meshAttempt (name : String)
  | transformAttempt (name : String)
  | materialAttempt (name : String)
  | textureAttempt (name : String)
  | lightAttempt (name : String)
  | cameraAttempt (name : String)
deriving DecidableEq

/-- `true` exactly on mesh attempt events. -/
def Event.isMeshAttempt : Event → Bool
  | .meshAttempt _ => true
  | _ => false

/-- `true` exactly on material attempt events. -/
def Event.isMaterialAttempt : Event → Bool
  | .materialAttempt _ => true
  | _ => false

/-- A scene node (mesh, transform node, light or camera).  `waitingParentId`
models the engine's transient `_waitingParentId` field (a possibly-undefined
string in the source); `parent` stores the id of the node installed as parent;
`material` (meaningful on meshes) stores the name of the material record
assigned by the material-binding step. -/
structure SNode where
  id : String
  name : String := ""
  waitingParentId : Option String := none
  parent : Option String := none
  material : Option String := none
deriving DecidableEq

/-- A live texture instance of the scene: its engine unique id and the
`metadata.editorName` tag used by the overridden texture parser. -/
structure STexture where
  uniqueId : Nat
  editorName : Option String := none
deriving DecidableEq

/-- The editor scene (`editor.scene`), restricted to the collections that
the importer reads or writes. -/
structure Scene where
  meshes : List SNode := []
  transformNodes : List SNode := []
  lights : List SNode := []
  cameras : List SNode := []
  textures : List STexture := []
  materials : List String := []
deriving DecidableEq

/-- JavaScript truthiness of a possibly-undefined string field: `undefined`
and the empty string are falsy. -/
def jsFalsy : Option String → Bool
  | none => true
  | some s => s == ""

/-- Babylon's `Scene.getMeshByID`: first mesh whose id matches. -/
def getMeshByID (s : Scene) (id : String) : Option SNode :=
  s.meshes.find? (fun m => m.id == id)

/-- Modelled from the spec: the engine's generic node index
(`Scene.getNodeByID`) covers meshes, lights and cameras; transform nodes are
not part of it, which is why `_SetWaitingParent` falls back to
`getTransformNodeByID`. -/
def getNodeByID (s : Scene) (id : String) : Option SNode :=
  (s.meshes ++ s.lights ++ s.cameras).find? (fun n => n.id == id)

/-- Babylon's `Scene.getTransformNodeByID`: first transform node whose id
matches. -/
def getTransformNodeByID (s : Scene) (id : String) : Option SNode :=
  s.transformNodes.find? (fun n => n.id == id)

/-- Babylon's `Scene.getTextureByUniqueID`: first texture whose unique id
matches. -/
def getTextureByUniqueID (s : Scene) (uid : Nat) : Option STexture :=
  s.textures.find? (fun t => t.uniqueId == uid)

/-- `ProjectImporter._SetWaitingParent` (part_003, lines 284-289): when the
node carries a truthy `_waitingParentId`, install as parent the node found by
the generic index, falling back to the transform-node index ( `??` ), possibly
`null`; then delete the waiting id.  A falsy waiting id returns immediately.
The source mutates the node in place while the caller iterates the scene
lists; since neither lookup depends on `parent`, `material` or
`waitingParentId`, resolving every node against the pre-pass scene is
equivalent. -/
def _SetWaitingParent (s : Scene) (n : SNode) : SNode :=
  if jsFalsy n.waitingParentId then n
  else
    let pid := n.waitingParentId.getD ""
    let found := match getNodeByID s pid with
      | some q => some q
      | none => getTransformNodeByID s pid
    { n with parent := found.map SNode.id, waitingParentId := none }

/-- The deferred parent-linking pass (part_003, lines 231-236): apply
`_SetWaitingParent` to every mesh, light, camera and transform node. -/
def linkParents (s : Scene) : Scene :=
  { s with
    meshes := s.meshes.map (_SetWaitingParent s)
    lights := s.lights.map (_SetWaitingParent s)
    cameras := s.cameras.map (_SetWaitingParent s)
    transformNodes := s.transformNodes.map (_SetWaitingParent s) }

/-- All nodes the parent-linking pass visits, in one list. -/
def allNodes (s : Scene) : List SNode :=
  s.meshes ++ s.lights ++ s.cameras ++ s.transformNodes

/-- A serialized texture occurrence (the argument of the texture parser):
its serialized unique id and `metadata.editorName` tag. -/
structure TextureSource where
  uniqueId : Nat
  editorName : Option String := none
deriving DecidableEq

/-- Modelled from the spec: the engine's stock texture parser (the value of
`SerializationHelper._TextureParser` captured before the override) parses the
serialized data into a fresh live texture, installs it into the scene and
returns it. -/
def engineTextureParser (scene : Scene) (source : TextureSource) :
    Scene × STexture :=
  let t : STexture := { uniqueId := source.uniqueId, editorName := source.editorName }
  ({ scene with textures := scene.textures ++ [t] }, t)

/-- The override installed over `SerializationHelper._TextureParser`
(part_003, lines 48-56): when the source carries a truthy
`metadata.editorName` and the scene already holds a texture with the same
`editorName` metadata, return that texture; otherwise defer to the captured
base parser. -/
def overriddenTextureParser (base : Scene → TextureSource → Scene × STexture)
    (scene : Scene) (source : TextureSource) : Scene × STexture :=
  if jsFalsy source.editorName then base scene source
  else
    match scene.textures.find? (fun t => t.editorName == source.editorName) with
    | some t => (scene, t)
    | none => base scene source

/-- Textures embedded in a material payload are reconstructed through the
(overridden) global texture parser while `Material.Parse` /
`MultiMaterial.ParseMultiMaterial` runs. -/
def parseMaterialTextures (scene : Scene) (srcs : List TextureSource) : Scene :=
  srcs.foldl (fun sc src => (overriddenTextureParser engineTextureParser sc src).1) scene

/-- One entry of `json.meshes` of a mesh file, conflated with the
corresponding element of `result.meshes` returned by
`SceneLoader.ImportMeshAsync` on the same file (the source reads the same
JSON document twice and pairs the two lists index by index). -/
structure MeshDesc where
  id : String
  name : String := ""
  parentId : Option String := none
deriving DecidableEq

/-- Outcome of one LOD descriptor of a mesh file: `lodName` is
`lod.mesh.meshes[0].name` (assumed present), `ok` whether the blob import
(`SceneLoader.ImportMeshAsync` on the object URL) succeeds, `hasMesh` whether
`lodResult.meshes[0]` exists and is a `Mesh`. -/
structure LodOutcome where
  lodName : String := ""
  ok : Bool := true
  hasMesh : Bool := true
deriving DecidableEq

/-- The content of one mesh file together with the outcome of the
engine-side import of that file. -/
structure MeshPayload where
  meshes : List MeshDesc := []
  lods : List LodOutcome := []
deriving DecidableEq

/-- The content of one transform-node file (`TransformNode.Parse` input plus
the `parentId` field the importer copies into `_waitingParentId`). -/
structure TransformPayload where
  id : String
  name : String := ""
  parentId : Option String := none
deriving DecidableEq

/-- The content of one material file: the serialized textures embedded in the
material payload, routed through the global texture parser. -/
structure MaterialPayload where
  textures : List TextureSource := []
deriving DecidableEq

/-- The content of one texture file: the serialized unique id checked by the
dedup lookup, and whether the subsequent `Texture.Parse` call succeeds. -/
structure TexturePayload where
  uniqueId : Nat
  editorName : Option String := none
  parseOk : Bool := true
deriving DecidableEq

/-- The content of one light file (`Light.Parse` input).  The engine parse
records the serialized `parentId` as the node's waiting parent id. -/
structure LightPayload where
  id : String
  name : String := ""
  parentId : Option String := none
deriving DecidableEq

/-- The content of one camera file (`Camera.Parse` input). -/
structure CameraPayload where
  id : String
  name : String := ""
  parentId : Option String := none
deriving DecidableEq

/-- One element of `IProject.materials`: the material file name, the
multi-material discriminant and the ids of the meshes bound to it. -/
structure MaterialEntry where
  json : String
  isMultiMaterial : Bool := false
  bindedMeshes : List String := []
deriving DecidableEq

/-- One element of `IProject.lights`: the light file name and the optional
shadow-generator file name. -/
structure LightEntry where
  json : String
  shadowGenerator : Option String := none
deriving DecidableEq

/-- `IProject.postProcesses`: for each of the three pipelines, `some enabled`
when the manifest carries a configuration for it. -/
structure PostProcesses where
  ssao : Option Bool := none
  standard : Option Bool := none
  defaultPipeline : Option Bool := none
deriving DecidableEq

/-- The manifest document (`IProject`, src/renderer/editor/project/typings.ts).
`transformNodes` is optional because the importer reads it as
`project.transformNodes ?? []`. -/
structure IProject where
  filesList : List String := []
  cameras : List String := []
  textures : List String := []
  materials : List MaterialEntry := []
  meshes : List String := []
  transformNodes : Option (List String) := none
  lights : List LightEntry := []
  assetsMeshes : List String := []
  assetsPrefabs : Option (List String) := none
  postProcesses : PostProcesses := {}
deriving DecidableEq

/-- The outcome oracle: for each file the pipeline may read (and each
engine-side call that may reject), the result that read/call would produce.
`Except.error` stands for a missing/corrupted file or a rejected parse. -/
structure ProjectFS where
  manifest : Except Unit IProject
  meshFile : String → Except Unit MeshPayload := fun _ => .error ()
  transformFile : String → Except Unit TransformPayload := fun _ => .error ()
  materialFile : String → Except Unit MaterialPayload := fun _ => .error ()
  textureFile : String → Except Unit TexturePayload := fun _ => .error ()
  lightFile : String → Except Unit LightPayload := fun _ => .error ()
  shadowFile : String → Except Unit Unit := fun _ => .error ()
  cameraFile : String → Except Unit CameraPayload := fun _ => .error ()
  physicsEngine : Option (SNode → Except Unit Unit) := none
  ppSsao : Except Unit Unit := .ok ()
  ppStandard : Except Unit Unit := .ok ()
  ppDefault : Except Unit Unit := .ok ()
  cacheFile : Except Unit Unit := .ok ()

/-- The state threaded through `_ImportProject`: the editor scene, the console
log, the attempt trace, the list of values reported to
`Overlay.SetSpinnervalue` (in order) together with the running `spinnerValue`
accumulator, the count of texture entries skipped by the unique-id dedup, the
registered file list and asset lists, and the terminal flags. -/
structure ImportState where
  scene : Scene
  log : List LogEvent := []
  trace : List Event := []
  spinner : List Rat := []
  spinnerValue : Rat := 0
  texSkips : Nat := 0
  files : List String := []
  meshAssets : List String := []
  prefabAssets : List String := []
  cacheInstalled : Bool := false
  refreshScheduled : Bool := false
deriving DecidableEq

/-- `Overlay.SetSpinnervalue(spinnerValue += spinnerStep)`: advance the
accumulator and report the new value. -/
def spinnerTick (step : Rat) (st : ImportState) : ImportState :=
  let v := st.spinnerValue + step
  { st with spinnerValue := v, spinner := st.spinner ++ [v] }

/-- Append a list of log events. -/
def pushLog (es : List LogEvent) (st : ImportState) : ImportState :=
  { st with log := st.log ++ es }

/-- Record a per-entity attempt. -/
def pushEvent (e : Event) (st : ImportState) : ImportState :=
  { st with trace := st.trace ++ [e] }

/-- The error message of part_003 line 96. -/
def meshFailMsg (m : String) : String := s!"Failed to load mesh \"{m}\""

/-- The error message of part_003 line 111. -/
def transformFailMsg (t : String) : String := s!"Failed to load transform node \"{t}\""

/-- The error message of part_003 line 146. -/
def materialFailMsg (m : String) : String := s!"Failed to parse material \"{m}\""

/-- The warning message of part_003 line 142 (the material name is
interpolated without quotes, the mesh id with quotes). -/
def bindFailMsg (m bm : String) : String :=
  s!"Failed to attach material {m} on mesh with id \"{bm}\""

/-- The error message of part_003 line 165. -/
def textureFailMsg (t : String) : String := s!"Failed to parse texture \"{t}\""

/-- The error message of part_003 line 190: the template string interpolates
the light manifest record `l` itself (not `l.json`), and a plain object
stringifies as `[object Object]` in a JavaScript template string. -/
def lightFailMsg (_l : LightEntry) : String :=
  "Failed to parse light \"[object Object]\""

/-- The error message of part_003 line 205. -/
def cameraFailMsg (c : String) : String := s!"Failed to parse camera \"{c}\""

/-- One LOD iteration of `ImportMesh` (part_003, lines 260-276).  `baseName`
is `result.meshes[0]?.name`.  The inner `try` body: a rejected blob import
throws; a missing/non-`Mesh` first LOD mesh is skipped silently (`continue`);
otherwise `addLODLevel` requires `result.meshes[0]` (throws on `undefined`)
and a success is logged.  The `catch` logs an error naming
`result.meshes[0].name`, which itself throws when `result.meshes` is empty,
letting the error escape `ImportMesh`. -/
def importLod (name : String) (baseName : Option String) (lod : LodOutcome) :
    Except Unit (List LogEvent) :=
  let ln := lod.lodName
  let inner : Except Unit (List LogEvent) :=
    if lod.ok = false then .error ()
    else if lod.hasMesh = false then .ok []
    else match baseName with
      | none => .error ()
      | some _ => .ok [LogEvent.info s!"Parsed LOD level \"{ln}\" for mesh \"{name}\""]
  match inner with
  | .ok logs => .ok logs
  | .error _ =>
    match baseName with
    | some bn => .ok [LogEvent.error s!"Failed to load LOD for \"{bn}\""]
    | none => .error ()

/-- Convert one `result.meshes` element into the scene node installed by
`SceneLoader.ImportMeshAsync`, with `_waitingParentId` set from
`json.meshes[index].parentId` (part_003, lines 255-257). -/
def meshNodeOf (d : MeshDesc) : SNode :=
  { id := d.id, name := d.name, waitingParentId := d.parentId }

/-- `ProjectImporter.ImportMesh` (part_003, lines 251-279), after the file
read succeeded: install the imported meshes, log the success, then process
each LOD descriptor with isolated failure handling.  On the (empty
`result.meshes`) corner where a LOD failure escapes, the error carries the
log events already emitted, which the caller's `catch` keeps. -/
def ImportMesh (name : String) (payload : MeshPayload) (scene : Scene) :
    Except (List LogEvent) (Scene × List LogEvent) :=
  let scene' := { scene with meshes := scene.meshes ++ payload.meshes.map meshNodeOf }
  let baseName := payload.meshes.head?.map MeshDesc.name
  let firstLog := [LogEvent.info s!"Parsed mesh \"{name}\""]
  let lodLogs := payload.lods.foldlM
    (fun acc lod => (importLod name baseName lod).map (fun l => acc ++ l)) []
  match lodLogs with
  | .ok logs => .ok (scene', firstLog ++ logs)
  | .error _ => .error firstLog

/-- The body of one mesh-loop iteration (part_003, lines 92-98), without the
trailing spinner report. -/
def meshBody (fs : ProjectFS) (m : String) (st : ImportState) : ImportState :=
  match fs.meshFile m with
  | .error _ => pushLog [LogEvent.error (meshFailMsg m)] st
  | .ok payload =>
    match ImportMesh m payload st.scene with
    | .ok (sc, logs) => { pushLog logs st with scene := sc }
    | .error logs => pushLog (logs ++ [LogEvent.error (meshFailMsg m)]) st

/-- The mesh step (part_003, lines 88-100): per entry, attempt the load with
isolated failure handling, then report progress. -/
def loadMeshes (fs : ProjectFS) (step : Rat) (names : List String)
    (st : ImportState) : ImportState :=
  names.foldl (fun st m => spinnerTick step (meshBody fs m (pushEvent (.meshAttempt m) st))) st

/-- The body of one transform-node-loop iteration (part_003, lines 106-112). -/
def transformBody (fs : ProjectFS) (t : String) (st : ImportState) : ImportState :=
  match fs.transformFile t with
  | .error _ => pushLog [LogEvent.error (transformFailMsg t)] st
  | .ok p =>
    { st with scene := { st.scene with transformNodes := st.scene.transformNodes ++
        [{ id := p.id, name := p.name, waitingParentId := p.parentId }] } }

/-- The transform-node step (part_003, lines 102-113): no success log and no
spinner report. -/
def loadTransformNodes (fs : ProjectFS) (names : List String)
    (st : ImportState) : ImportState :=
  names.foldl (fun st t => transformBody fs t (pushEvent (.transformAttempt t) st)) st

/-- The physics-impostor step (part_003, lines 115-126): when a physics
engine is present, attempt `getImpostorForPhysicsObject` for every scene mesh
with isolated failure handling. -/
def loadPhysics (fs : ProjectFS) (st : ImportState) : ImportState :=
  match fs.physicsEngine with
  | none => st
  | some impostor =>
    st.scene.meshes.foldl (fun acc m =>
      let nm := m.name
      match impostor m with
      | .ok _ => pushLog [LogEvent.info s!"Parsed physics impostor for mesh \"{nm}\""] acc
      | .error _ => pushLog [LogEvent.error s!"Failed to set physics impostor for mesh \"{nm}\""] acc) st

/-- Assign `material` on the first scene mesh whose id matches (the object
returned by `getMeshByID`, part_003 lines 138-140). -/
def setMaterialOnFirst (bm matName : String) : List SNode → List SNode
  | [] => []
  | mesh :: rest =>
    if mesh.id == bm then { mesh with material := some matName } :: rest
    else mesh :: setMaterialOnFirst bm matName rest

/-- One binding of one material (part_003, lines 138-143): assign the
material when a mesh with id `bm` exists, otherwise log a warning and skip
the binding. -/
def bindBody (matName bm : String) (st : ImportState) : ImportState :=
  match getMeshByID st.scene bm with
  | some _ => { st with scene := { st.scene with
      meshes := setMaterialOnFirst bm matName st.scene.meshes } }
  | none => pushLog [LogEvent.warning (bindFailMsg matName bm)] st

/-- The binding loop of one material (part_003, lines 137-144). -/
def bindMeshes (matName : String) (bms : List String) (st : ImportState) : ImportState :=
  bms.foldl (fun st bm => bindBody matName bm st) st

/-- The body of one material-loop iteration (part_003, lines 132-147): on a
successful read, the material parse installs its embedded textures through
the overridden texture parser and the material itself, logs the success and
runs the binding loop. -/
def materialBody (fs : ProjectFS) (m : MaterialEntry) (st : ImportState) : ImportState :=
  match fs.materialFile m.json with
  | .error _ => pushLog [LogEvent.error (materialFailMsg m.json)] st
  | .ok p =>
    let st := { st with scene :=
      { st.scene with
          textures := (parseMaterialTextures st.scene p.textures).textures
          materials := st.scene.materials ++ [m.json] } }
    let st := pushLog [LogEvent.info s!"Parsed material \"{m.json}\""] st
    bindMeshes m.json m.bindedMeshes st

/-- The material step (part_003, lines 128-150). -/
def loadMaterials (fs : ProjectFS) (step : Rat) (entries : List MaterialEntry)
    (st : ImportState) : ImportState :=
  entries.foldl (fun st m =>
    spinnerTick step (materialBody fs m (pushEvent (.materialAttempt m.json) st))) st

/-- One texture-loop iteration (part_003, lines 156-167).  A failed read is
logged and progress reported; a successful read whose unique id already
resolves in the scene is skipped via `continue`, which also skips the spinner
report of line 167 (recorded in `texSkips`); otherwise `Texture.Parse`
installs the texture (or throws, logged), and progress is reported. -/
def textureBody (fs : ProjectFS) (step : Rat) (t : String)
    (st : ImportState) : ImportState :=
  match fs.textureFile t with
  | .error _ => spinnerTick step (pushLog [LogEvent.error (textureFailMsg t)] st)
  | .ok p =>
    match getTextureByUniqueID st.scene p.uniqueId with
    | some _ => { st with texSkips := st.texSkips + 1 }
    | none =>
      if p.parseOk then
        spinnerTick step (pushLog [LogEvent.info s!"Parsed texture \"{t}\""]
          { st with scene := { st.scene with textures := st.scene.textures ++
              [{ uniqueId := p.uniqueId, editorName := p.editorName }] } })
      else
        spinnerTick step (pushLog [LogEvent.error (textureFailMsg t)] st)

/-- The texture step (part_003, lines 152-168). -/
def loadTextures (fs : ProjectFS) (step : Rat) (names : List String)
    (st : ImportState) : ImportState :=
  names.foldl (fun st t => textureBody fs step t (pushEvent (.textureAttempt t) st)) st

/-- The body of one light-loop iteration (part_003, lines 174-191): parse the
light, then, when a shadow generator is referenced, read and parse it inside
the same `try`; a failure anywhere logs a single error (keeping the partial
effects already performed). -/
def lightBody (fs : ProjectFS) (l : LightEntry) (st : ImportState) : ImportState :=
  match fs.lightFile l.json with
  | .error _ => pushLog [LogEvent.error (lightFailMsg l)] st
  | .ok p =>
    let st := { st with scene := { st.scene with lights := st.scene.lights ++
        [{ id := p.id, name := p.name, waitingParentId := p.parentId }] } }
    let st := pushLog [LogEvent.info s!"Parsed light \"{l.json}\""] st
    match l.shadowGenerator with
    | none => st
    | some sg =>
      match fs.shadowFile sg with
      | .error _ => pushLog [LogEvent.error (lightFailMsg l)] st
      | .ok _ => pushLog [LogEvent.info s!"Parsed shadows for light \"{l.json}\""] st

/-- The light step (part_003, lines 170-194). -/
def loadLights (fs : ProjectFS) (step : Rat) (entries : List LightEntry)
    (st : ImportState) : ImportState :=
  entries.foldl (fun st l =>
    spinnerTick step (lightBody fs l (pushEvent (.lightAttempt l.json) st))) st

/-- The body of one camera-loop iteration (part_003, lines 200-206). -/
def cameraBody (fs : ProjectFS) (c : String) (st : ImportState) : ImportState :=
  match fs.cameraFile c with
  | .error _ => pushLog [LogEvent.error (cameraFailMsg c)] st
  | .ok p =>
    let st := { st with scene := { st.scene with cameras := st.scene.cameras ++
        [{ id := p.id, name := p.name, waitingParentId := p.parentId }] } }
    pushLog [LogEvent.info s!"Parsed camera \"{c}\""] st

/-- The camera step (part_003, lines 196-209). -/
def loadCameras (fs : ProjectFS) (step : Rat) (names : List String)
    (st : ImportState) : ImportState :=
  names.foldl (fun st c =>
    spinnerTick step (cameraBody fs c (pushEvent (.cameraAttempt c) st))) st

/-- Run a fallible call only when the manifest carries the corresponding
configuration (`if (project.postProcesses.X) { ... }`). -/
def requireIf (cond : Bool) (r : Except Unit Unit) : Except Unit Unit :=
  if cond then r else .ok ()

/-- The post-process step (part_003, lines 211-225): the three
`SerializationHelper.Parse` calls are not wrapped in any `try`; a failure
escapes `_ImportProject`. -/
def configurePostProcesses (fs : ProjectFS) (pp : PostProcesses)
    (st : ImportState) : Except Unit ImportState :=
  match requireIf pp.ssao.isSome fs.ppSsao with
  | .error e => .error e
  | .ok _ =>
    match requireIf pp.standard.isSome fs.ppStandard with
    | .error e => .error e
    | .ok _ =>
      match requireIf pp.defaultPipeline.isSome fs.ppDefault with
      | .error e => .error e
      | .ok _ => .ok st

/-- `totalUnits` of the progress denominator (part_003, line 67). -/
def totalUnits (p : IProject) : Nat :=
  p.textures.length + p.materials.length + p.meshes.length +
    p.lights.length + p.cameras.length

/-- The progress increment (part_003, line 67): `1 / totalUnits`, computed
once at pipeline start. -/
def spinnerStep (p : IProject) : Rat :=
  1 / ((totalUnits p : Nat) : Rat)

/-- The state right after the manifest read (part_003, lines 66-80):
`Overlay.SetSpinnervalue(0)`, the file registry and the asset lists
populated from the manifest. -/
def initState (project : IProject) (scene0 : Scene) : ImportState :=
  { scene := scene0
    spinner := [0]
    files := project.filesList
    meshAssets := project.assetsMeshes
    prefabAssets := project.assetsPrefabs.getD [] }

/-- The per-entity part of the pipeline (part_003, lines 88-209): meshes,
transform nodes, physics impostors, materials, textures, lights, cameras —
strictly in this order, every entity wrapped in isolated failure handling. -/
def entitySteps (fs : ProjectFS) (project : IProject) (st : ImportState) : ImportState :=
  let step := spinnerStep project
  loadCameras fs step project.cameras
    (loadLights fs step project.lights
      (loadTextures fs step project.textures
        (loadMaterials fs step project.materials
          (loadPhysics fs
            (loadTransformNodes fs (project.transformNodes.getD [])
              (loadMeshes fs step project.meshes st))))))

/-- The tail of the pipeline after the asset-cache read succeeded (part_003,
lines 229-240): install the cache, run the deferred parent-linking pass and
register the editor refresh on scene readiness. -/
def finalizeImport (st : ImportState) : ImportState :=
  { st with cacheInstalled := true
            scene := linkParents st.scene
            refreshScheduled := true }

/-- `ProjectImporter._ImportProject` (part_003, lines 43-241) over the
outcome oracle `fs` and the initial editor scene.  The manifest read is the
first fallible step; the per-entity loops are total; the post-process parses
and the asset-cache read are fallible and unwrapped.  `Except.error` is the
pipeline rejecting (to be caught by `ImportProject`). -/
def _ImportProject (fs : ProjectFS) (scene0 : Scene) : Except Unit ImportState :=
  match fs.manifest with
  | .error e => .error e
  | .ok project =>
    match configurePostProcesses fs project.postProcesses
        (entitySteps fs project (initState project scene0)) with
    | .error e => .error e
    | .ok st =>
      match fs.cacheFile with
      | .error e => .error e
      | .ok _ => .ok (finalizeImport st)

/-- `ProjectImporter._RefreshEditor` (part_003, lines 294-299): refresh the
assets panel, refresh the graph, hide the overlay. -/
structure EditorRefresh where
  assetsRefreshed : Bool
  graphRefreshed : Bool
  overlayHidden : Bool
deriving DecidableEq

/-- The effects of `_RefreshEditor`. -/
def _RefreshEditor : EditorRefresh :=
  { assetsRefreshed := true, graphRefreshed := true, overlayHidden := true }

/-- The observable outcome of the public entry point: the final pipeline
state when the pipeline succeeded, and the `_RefreshEditor` invocation of the
`catch` branch when it rejected. -/
structure ImportOutcome where
  result : Option ImportState
  catchRefresh : Option EditorRefresh
deriving DecidableEq

/-- `ProjectImporter.ImportProject` (part_003, lines 31-38): run the pipeline
and catch any rejection, invoking `_RefreshEditor` from the `catch`.  The
function is total: no failure of the inner pipeline escapes it. -/
def ImportProject (fs : ProjectFS) (scene0 : Scene) : ImportOutcome :=
  match _ImportProject fs scene0 with
  | .ok st => { result := some st, catchRefresh := none }
  | .error _ => { result := none, catchRefresh := some _RefreshEditor }

/-- Number of live scene textures carrying unique id `k`. -/
def countUid (k : Nat) (s : Scene) : Nat :=
  (s.textures.filter (fun t => t.uniqueId == k)).length

/-- Invariant of the spinner reports: the last reported value is the current
accumulator, the reported values are non-decreasing, and no report exceeds
the accumulator. -/
def SpinInv (st : ImportState) : Prop :=
  st.spinner.getLast? = some st.spinnerValue ∧
  List.Pairwise (fun a b => a ≤ b) st.spinner ∧
  ∀ x ∈ st.spinner, x ≤ st.spinnerValue

/-- The spinner accumulator plus the progress units withheld by dedup skips:
every entity of a progress-reporting step advances this quantity by exactly
one `step`, whether it ticked the spinner or was skipped. -/
def spinBudget (step : Rat) (st : ImportState) : Rat :=
  st.spinnerValue + st.texSkips * step

/-- A state transformer that leaves the spinner fields untouched. -/
def SpinNeutral (f : ImportState → ImportState) : Prop :=
  ∀ st, (f st).spinner = st.spinner ∧ (f st).spinnerValue = st.spinnerValue ∧
    (f st).texSkips = st.texSkips

/-! Concrete instances used by the witnesses and counterexamples below. -/

/-- A manifest with two texture entries resolving to the same unique id. -/
def dupTexProject : IProject := { textures := ["a", "b"] }

/-- Oracle for `dupTexProject`: both texture files read fine and carry
unique id 1. -/
def dupTexFS : ProjectFS :=
  { manifest := .ok dupTexProject
    textureFile := fun _ => .ok { uniqueId := 1 } }

/-- Oracle whose manifest reads fine but whose asset-cache read fails. -/
def badCacheFS : ProjectFS :=
  { manifest := .ok {}, cacheFile := .error () }

/-- Oracle with one mesh entry whose file is unreadable and everything else
healthy. -/
def oneBadMeshFS : ProjectFS :=
  { manifest := .ok { meshes := ["bad"] } }

/-- Oracle with one mesh entry whose read fails: the single entity of
the import, so a completed spinner ends at 1.0. -/
def oneMeshProject : IProject := { meshes := ["m"] }

/-- Oracle for `oneMeshProject`. -/
def oneMeshFS : ProjectFS := { manifest := .ok oneMeshProject }

/-- Oracle whose manifest read itself fails. -/
def noManifestFS : ProjectFS := { manifest := .error () }

/-- Oracle whose texture files all carry unique id 5. -/
def uid5FS : ProjectFS :=
  { manifest := .ok {}, textureFile := fun _ => .ok { uniqueId := 5 } }

/-- A scene holding a child mesh waiting for parent id "p" and a transform
node with id "p" (the parent is only found by the transform-node fallback). -/
def childParentScene : Scene :=
  { meshes := [{ id := "c", waitingParentId := some "p" }]
    transformNodes := [{ id := "p" }] }

/-- The child mesh of `childParentScene`. -/
def childNode : SNode := { id := "c", waitingParentId := some "p" }

/-- A scene holding one mesh waiting for a parent id that no node carries. -/
def danglingScene : Scene :=
  { meshes := [{ id := "c", waitingParentId := some "ghost" }]
    lights := [{ id := "l" }] }

/-- The dangling-parent mesh of `danglingScene`. -/
def danglingNode : SNode := { id := "c", waitingParentId := some "ghost" }

/-- Mesh-step oracle: entry "bad" fails to read, entries "g1" and "g2" load
one mesh each with no LOD. -/
def oneBadOfThreeFS : ProjectFS :=
  { manifest := .ok {}
    meshFile := fun n =>
      if n == "bad" then .error ()
      else .ok { meshes := [{ id := n ++ "-id", name := n }] } }

/-- A state holding one mesh with id "ida", for the binding witness. -/
def bindState : ImportState :=
  { scene := { meshes := [{ id := "ida" }] } }

/-- A manifest with one mesh and one material, for the ordering witness. -/
def orderProject : IProject :=
  { meshes := ["a"], materials := [{ json := "m" }] }

/-- Oracle for `orderProject`: both files read fine. -/
def orderFS : ProjectFS :=
  { manifest := .ok orderProject
    meshFile := fun _ => .ok { meshes := [{ id := "ida" }] }
    materialFile := fun _ => .ok {} }

/-- A scene already holding a texture tagged with editorName "E". -/
def taggedScene : Scene :=
  { textures := [{ uniqueId := 1, editorName := some "E" }] }

/-- A serialized texture source tagged with the same editorName "E" (but a
different unique id). -/
def taggedSource : TextureSource := { uniqueId := 2, editorName := some "E" }

/-- The default import state over the empty scene. -/
def emptyState : ImportState := { scene := {} }

/-! ### Helper lemmas -/

theorem find_id_eq {l : List SNode} {pid : String} {q : SNode}
    (h : l.find? (fun n => n.id == pid) = some q) : q.id = pid := by
  have := List.find?_some h
  simpa using this

theorem allNodes_linkParents (s : Scene) :
    allNodes (linkParents s) = (allNodes s).map (_SetWaitingParent s) := by
  simp [allNodes, linkParents]

theorem requireIf_ok (c : Bool) : requireIf c (.ok ()) = .ok () := by
  unfold requireIf; split <;> rfl

theorem configurePP_ok_eq {fs : ProjectFS} {pp : PostProcesses}
    {st st' : ImportState}
    (h : configurePostProcesses fs pp st = .ok st') : st' = st := by
  unfold configurePostProcesses at h
  split at h
  · simp at h
  · split at h
    · simp at h
    · split at h
      · simp at h
      · simp at h; exact h.symm

theorem _ImportProject_ok_inv {fs : ProjectFS} {sc : Scene} {st : ImportState}
    (h : _ImportProject fs sc = .ok st) :
    ∃ project, fs.manifest = .ok project ∧
      st = finalizeImport (entitySteps fs project (initState project sc)) := by
  unfold _ImportProject at h
  split at h
  · simp at h
  · rename_i project hm
    split at h
    · simp at h
    · rename_i st2 hc
      split at h
      · simp at h
      · simp at h
        exact ⟨project, hm, by rw [← h, configurePP_ok_eq hc]⟩

/-! ### C4: deferred parent linking finds the parent -/

/-- **C4**: for a node carrying a (truthy) waiting parent id, the deferred
pass keeps the node in the scene and, whenever either the generic node index
or the transform-node fallback resolves the id, installs a node with exactly
that id as parent — in particular a child loaded before its parent ends the
pipeline with the correct parent assigned. -/
theorem c4_deferredParentLinking (s : Scene) (n : SNode) (pid : String)
    (hn : n ∈ allNodes s) (hw : n.waitingParentId = some pid) (hne : pid ≠ "")
    (hfound : (getNodeByID s pid).isSome = true ∨ (getTransformNodeByID s pid).isSome = true) :
    _SetWaitingParent s n ∈ allNodes (linkParents s) ∧
    (_SetWaitingParent s n).parent = some pid := by
  have hf : jsFalsy n.waitingParentId = false := by
    rw [hw]; simp [jsFalsy]; exact hne
  have hfp : jsFalsy (some pid) = false := by
    simpa [jsFalsy] using hne
  constructor
  · rw [allNodes_linkParents]; exact List.mem_map_of_mem _ hn
  · cases hq : getNodeByID s pid with
    | some q =>
      have hq' : (s.meshes ++ s.lights ++ s.cameras).find? (fun n => n.id == pid) = some q := hq
      have hid : q.id = pid := find_id_eq hq'
      unfold _SetWaitingParent
      rw [hw, hfp]
      simp [hq, hid]
    | none =>
      have hR : (getTransformNodeByID s pid).isSome = true := by
        rcases hfound with hL | hR
        · rw [hq] at hL; simp at hL
        · exact hR
      rcases Option.isSome_iff_exists.mp hR with ⟨q, hq2⟩
      have hq2' : s.transformNodes.find? (fun n => n.id == pid) = some q := hq2
      have hid : q.id = pid := find_id_eq hq2'
      unfold _SetWaitingParent
      rw [hw, hfp]
      simp [hq, hq2, hid]

/-- Witness for C4 at a concrete scene: the child "c" is linked to the
transform node "p". -/
theorem c4_deferredParentLinking_witness :
    _SetWaitingParent childParentScene childNode ∈ allNodes (linkParents childParentScene) ∧
    (_SetWaitingParent childParentScene childNode).parent = some "p" :=
  c4_deferredParentLinking childParentScene childNode "p"
    (by decide) (by decide) (by decide) (by decide)

/-! ### C5: no dangling waiting ids after the pass -/

/-- **C5**: after the deferred parent-linking pass, no node of the scene
retains a (truthy) waiting parent id; and a node whose waiting id resolves
nowhere stays in the scene, parent-less, its waiting id cleared.  (The pass
is a total function: it never raises.) -/
theorem c5_noDanglingWaitingIds (s : Scene) :
    (∀ n ∈ allNodes (linkParents s), jsFalsy n.waitingParentId = true) ∧
    (∀ n ∈ allNodes s, ∀ pid, n.waitingParentId = some pid → pid ≠ "" →
      getNodeByID s pid = none → getTransformNodeByID s pid = none →
      _SetWaitingParent s n ∈ allNodes (linkParents s) ∧
      (_SetWaitingParent s n).parent = none ∧
      (_SetWaitingParent s n).waitingParentId = none) := by
  constructor
  · intro n hn
    rw [allNodes_linkParents] at hn
    rcases List.mem_map.mp hn with ⟨m, _, rfl⟩
    by_cases hf : jsFalsy m.waitingParentId = true
    · simp [_SetWaitingParent, hf]
    · have hf' : jsFalsy m.waitingParentId = false := by
        simpa using hf
      unfold _SetWaitingParent
      rw [hf']
      simp [jsFalsy]
  · intro n hn pid hw hne hg ht
    have hfp : jsFalsy (some pid) = false := by
      simpa [jsFalsy] using hne
    refine ⟨?_, ?_, ?_⟩
    · rw [allNodes_linkParents]; exact List.mem_map_of_mem _ hn
    · unfold _SetWaitingParent
      rw [hw, hfp]
      simp [hg, ht]
    · unfold _SetWaitingParent
      rw [hw, hfp]
      simp

/-- Witness for C5 at a concrete scene with a dangling waiting id "ghost". -/
theorem c5_noDanglingWaitingIds_witness :
    _SetWaitingParent danglingScene danglingNode ∈ allNodes (linkParents danglingScene) ∧
    (_SetWaitingParent danglingScene danglingNode).parent = none ∧
    (_SetWaitingParent danglingScene danglingNode).waitingParentId = none :=
  (c5_noDanglingWaitingIds danglingScene).2 danglingNode (by decide) "ghost"
    (by decide) (by decide) (by decide) (by decide)

/-! ### C9: editorName-based texture deduplication -/

/-- **C9**: the overridden global texture parser resolves a serialized
texture whose `metadata.editorName` matches a texture already in the scene to
that existing instance, leaving the scene unchanged and never invoking the
base parser — for any base parser, hence also for textures embedded in
material payloads, which go through the same parser during material parsing. -/
theorem c9_editorNameDedup (base : Scene → TextureSource → Scene × STexture)
    (scene : Scene) (source : TextureSource) (t : STexture)
    (h1 : jsFalsy source.editorName = false)
    (h2 : scene.textures.find? (fun tx => tx.editorName == source.editorName) = some t) :
    overriddenTextureParser base scene source = (scene, t) ∧
    parseMaterialTextures scene [source] = scene := by
  have hgen : ∀ b, overriddenTextureParser b scene source = (scene, t) := by
    intro b
    simp [overriddenTextureParser, h1, h2]
  exact ⟨hgen base, by simp [parseMaterialTextures, hgen engineTextureParser]⟩

/-- Witness for C9 at a concrete scene and source sharing editorName "E". -/
theorem c9_editorNameDedup_witness :
    overriddenTextureParser engineTextureParser taggedScene taggedSource =
      (taggedScene, { uniqueId := 1, editorName := some "E" }) ∧
    parseMaterialTextures taggedScene [taggedSource] = taggedScene :=
  c9_editorNameDedup engineTextureParser taggedScene taggedSource
    { uniqueId := 1, editorName := some "E" } (by decide) (by decide)

/-! ### C10: the public entry point never rejects -/

/-- **C10**: `ImportProject` is a total function: a rejection of the inner
pipeline (including the fatal manifest-read failure) is caught and answered
by the catch-branch `_RefreshEditor` invocation (assets refresh, graph
refresh, overlay hide), and a successful pipeline ends with the editor
refresh scheduled on scene readiness — either way the application reaches a
defined state. -/
theorem c10_publicImportTotal (fs : ProjectFS) (sc : Scene) :
    ((_ImportProject fs sc).isOk = false →
      ImportProject fs sc = { result := none, catchRefresh := some _RefreshEditor }) ∧
    (∀ st, _ImportProject fs sc = .ok st →
      ImportProject fs sc = { result := some st, catchRefresh := none } ∧
      st.refreshScheduled = true) := by
  constructor
  · intro h
    unfold ImportProject
    cases hr : _ImportProject fs sc with
    | ok st => rw [hr] at h; simp [Except.isOk, Except.toBool] at h
    | error e => rfl
  · intro st h
    have hout : ImportProject fs sc = { result := some st, catchRefresh := none } := by
      unfold ImportProject; rw [h]
    refine ⟨hout, ?_⟩
    rcases _ImportProject_ok_inv h with ⟨p, _, rfl⟩
    rfl

/-- Witness for C10: a failing manifest read is caught and the editor
refresh path runs. -/
theorem c10_publicImportTotal_witness :
    ImportProject noManifestFS {} =
      { result := none, catchRefresh := some _RefreshEditor } :=
  (c10_publicImportTotal noManifestFS {}).1 (by rfl)

/-! ### C1: per-entity isolation (corrected: cache load and post-processes
are not isolated) -/

/-- Counterexample to **C1** as stated: the manifest of `badCacheFS` reads
fine, yet the import aborts — the asset-cache read (part_003, line 229) is
not wrapped in any per-entity `try` and its failure escapes the pipeline. -/
theorem c1_counterexample :
    badCacheFS.manifest.isOk = true ∧ (_ImportProject badCacheFS {}).isOk = false :=
  ⟨rfl, rfl⟩

/-- **C1**, amended: no failure of a per-entity mesh, transform-node,
material, texture, light or camera load step (whatever the entity outcomes
in `fs`) escapes the pipeline; but besides the manifest read, the
post-process parses and the asset-cache read are fatal when they fail. -/
theorem c1_entityIsolation_amended (fs : ProjectFS) (sc : Scene) (project : IProject)
    (hm : fs.manifest = .ok project)
    (h1 : fs.ppSsao = .ok ()) (h2 : fs.ppStandard = .ok ()) (h3 : fs.ppDefault = .ok ())
    (hc : fs.cacheFile = .ok ()) :
    _ImportProject fs sc =
      .ok (finalizeImport (entitySteps fs project (initState project sc))) := by
  have hcp : ∀ st : ImportState,
      configurePostProcesses fs project.postProcesses st = .ok st := by
    intro st
    unfold configurePostProcesses
    rw [h1, h2, h3, requireIf_ok, requireIf_ok, requireIf_ok]
  unfold _ImportProject
  rw [hm]
  simp [hcp, hc]

/-- Witness for the amended C1: a project whose only mesh fails to load
still imports successfully. -/
theorem c1_entityIsolation_amended_witness :
    _ImportProject oneBadMeshFS {} =
      .ok (finalizeImport (entitySteps oneBadMeshFS { meshes := ["bad"] }
        (initState { meshes := ["bad"] } {}))) :=
  c1_entityIsolation_amended oneBadMeshFS {} { meshes := ["bad"] } rfl rfl rfl rfl rfl

/-! ### Projection lemmas for the state helpers -/

@[simp] theorem spinnerTick_scene (step : Rat) (st : ImportState) :
    (spinnerTick step st).scene = st.scene := rfl

@[simp] theorem spinnerTick_log (step : Rat) (st : ImportState) :
    (spinnerTick step st).log = st.log := rfl

@[simp] theorem spinnerTick_trace (step : Rat) (st : ImportState) :
    (spinnerTick step st).trace = st.trace := rfl

@[simp] theorem spinnerTick_texSkips (step : Rat) (st : ImportState) :
    (spinnerTick step st).texSkips = st.texSkips := rfl

@[simp] theorem spinnerTick_spinner (step : Rat) (st : ImportState) :
    (spinnerTick step st).spinner = st.spinner ++ [st.spinnerValue + step] := rfl

@[simp] theorem spinnerTick_spinnerValue (step : Rat) (st : ImportState) :
    (spinnerTick step st).spinnerValue = st.spinnerValue + step := rfl

@[simp] theorem pushLog_scene (es : List LogEvent) (st : ImportState) :
    (pushLog es st).scene = st.scene := rfl

@[simp] theorem pushLog_log (es : List LogEvent) (st : ImportState) :
    (pushLog es st).log = st.log ++ es := rfl

@[simp] theorem pushLog_trace (es : List LogEvent) (st : ImportState) :
    (pushLog es st).trace = st.trace := rfl

@[simp] theorem pushLog_texSkips (es : List LogEvent) (st : ImportState) :
    (pushLog es st).texSkips = st.texSkips := rfl

@[simp] theorem pushLog_spinner (es : List LogEvent) (st : ImportState) :
    (pushLog es st).spinner = st.spinner := rfl

@[simp] theorem pushLog_spinnerValue (es : List LogEvent) (st : ImportState) :
    (pushLog es st).spinnerValue = st.spinnerValue := rfl

@[simp] theorem pushEvent_scene (e : Event) (st : ImportState) :
    (pushEvent e st).scene = st.scene := rfl

@[simp] theorem pushEvent_log (e : Event) (st : ImportState) :
    (pushEvent e st).log = st.log := rfl

@[simp] theorem pushEvent_trace (e : Event) (st : ImportState) :
    (pushEvent e st).trace = st.trace ++ [e] := rfl

@[simp] theorem pushEvent_texSkips (e : Event) (st : ImportState) :
    (pushEvent e st).texSkips = st.texSkips := rfl

@[simp] theorem pushEvent_spinner (e : Event) (st : ImportState) :
    (pushEvent e st).spinner = st.spinner := rfl

@[simp] theorem pushEvent_spinnerValue (e : Event) (st : ImportState) :
    (pushEvent e st).spinnerValue = st.spinnerValue := rfl

/-! ### Counting textures by unique id -/

theorem countUid_ext {k : Nat} {s s' : Scene} {l : List STexture}
    (h : s'.textures = s.textures ++ l) :
    countUid k s' = countUid k s + (l.filter (fun t => t.uniqueId == k)).length := by
  unfold countUid
  rw [h, List.filter_append, List.length_append]

theorem countUid_le_of_append {k : Nat} {s s' : Scene}
    (h : ∃ l, s'.textures = s.textures ++ l) :
    countUid k s ≤ countUid k s' := by
  rcases h with ⟨l, hl⟩
  rw [countUid_ext hl]
  exact Nat.le_add_right _ _

theorem countUid_pos_of_found {k : Nat} {s : Scene} {tex : STexture}
    (h : getTextureByUniqueID s k = some tex) : 1 ≤ countUid k s := by
  have h' : s.textures.find? (fun t => t.uniqueId == k) = some tex := h
  have hmem : tex ∈ s.textures := List.mem_of_find?_eq_some h'
  have hp := List.find?_some h'
  have hmf : tex ∈ s.textures.filter (fun t => t.uniqueId == k) :=
    List.mem_filter.mpr ⟨hmem, hp⟩
  have := List.length_pos.mpr (List.ne_nil_of_mem hmf)
  simpa [countUid] using this

theorem countUid_zero_of_none {k : Nat} {s : Scene}
    (h : getTextureByUniqueID s k = none) : countUid k s = 0 := by
  have h' : s.textures.find? (fun t => t.uniqueId == k) = none := h
  have hall := List.find?_eq_none.mp h'
  unfold countUid
  rw [List.filter_eq_nil_iff.mpr ?_]
  · rfl
  · intro t ht
    exact hall t ht

/-! ### C3: unique-id texture deduplication -/

theorem textureBody_spec (fs : ProjectFS) (step : Rat) (t : String)
    (st : ImportState) (k : Nat) :
    (∃ l, (textureBody fs step t st).scene.textures = st.scene.textures ++ l) ∧
    (countUid k st.scene ≤ 1 → countUid k (textureBody fs step t st).scene ≤ 1) ∧
    (∀ p, fs.textureFile t = .ok p → p.parseOk = true → p.uniqueId = k →
      1 ≤ countUid k (textureBody fs step t st).scene) := by
  cases hf : fs.textureFile t with
  | error e =>
    refine ⟨⟨[], by simp [textureBody, hf]⟩, ?_, ?_⟩
    · intro h1; simpa [textureBody, hf] using h1
    · intro p hp _ _
      simp at hp
  | ok p =>
    cases hg : getTextureByUniqueID st.scene p.uniqueId with
    | some tex =>
      refine ⟨⟨[], by simp [textureBody, hf, hg]⟩, ?_, ?_⟩
      · intro h1; simpa [textureBody, hf, hg] using h1
      · intro p' hp' _ hpk
        have hpp : p' = p := (Except.ok.inj hp').symm
        subst hpp
        subst hpk
        have h1 := countUid_pos_of_found hg
        exact le_trans h1 (countUid_le_of_append ⟨[], by simp [textureBody, hf, hg]⟩)
    | none =>
      by_cases hok : p.parseOk = true
      · have hsc : (textureBody fs step t st).scene.textures
            = st.scene.textures ++ [{ uniqueId := p.uniqueId, editorName := p.editorName }] := by
          simp [textureBody, hf, hg, hok]
        refine ⟨⟨_, hsc⟩, ?_, ?_⟩
        · intro h1
          rw [countUid_ext hsc]
          by_cases hk : p.uniqueId = k
          · have h0 : countUid k st.scene = 0 := countUid_zero_of_none (by rw [← hk]; exact hg)
            simp [h0, hk]
          · have hbeq : (({ uniqueId := p.uniqueId, editorName := p.editorName } : STexture).uniqueId == k) = false := by
              simp [hk]
            simp only [List.filter, hbeq, List.length_nil]
            simpa using h1
        · intro p' hp' _ hpk
          have hpp : p' = p := (Except.ok.inj hp').symm
          subst hpp
          subst hpk
          rw [countUid_ext hsc]
          simp
      · have hokf : p.parseOk = false := by simpa using hok
        refine ⟨⟨[], by simp [textureBody, hf, hg, hokf]⟩, ?_, ?_⟩
        · intro h1; simpa [textureBody, hf, hg, hokf] using h1
        · intro p' hp' hok2 _
          have hpp : p' = p := (Except.ok.inj hp').symm
          subst hpp
          rw [hok2] at hokf
          simp at hokf

theorem loadTextures_cons (fs : ProjectFS) (step : Rat) (t : String)
    (rest : List String) (st : ImportState) :
    loadTextures fs step (t :: rest) st =
      loadTextures fs step rest (textureBody fs step t (pushEvent (.textureAttempt t) st)) := rfl

theorem loadTextures_spec (fs : ProjectFS) (step : Rat) (k : Nat) :
    ∀ (names : List String) (st : ImportState),
    (∃ l, (loadTextures fs step names st).scene.textures = st.scene.textures ++ l) ∧
    (countUid k st.scene ≤ 1 → countUid k (loadTextures fs step names st).scene ≤ 1) ∧
    ((∃ t ∈ names, ∃ p, fs.textureFile t = .ok p ∧ p.parseOk = true ∧ p.uniqueId = k) →
      1 ≤ countUid k (loadTextures fs step names st).scene) := by
  intro names
  induction names with
  | nil =>
    intro st
    refine ⟨⟨[], by simp [loadTextures]⟩, by simp [loadTextures], ?_⟩
    rintro ⟨t, ht, -⟩
    simp at ht
  | cons t rest ih =>
    intro st
    rw [loadTextures_cons]
    set st1 := textureBody fs step t (pushEvent (.textureAttempt t) st) with hst1
    have hbody := textureBody_spec fs step t (pushEvent (.textureAttempt t) st) k
    have hrest := ih st1
    refine ⟨?_, ?_, ?_⟩
    · rcases hbody.1 with ⟨l1, hl1⟩
      rcases hrest.1 with ⟨l2, hl2⟩
      have hl1' : st1.scene.textures = st.scene.textures ++ l1 := by simpa using hl1
      exact ⟨l1 ++ l2, by rw [hl2, hl1', List.append_assoc]⟩
    · intro h1
      apply hrest.2.1
      have h1' : countUid k (pushEvent (.textureAttempt t) st).scene ≤ 1 := by simpa using h1
      exact hbody.2.1 h1'
    · rintro ⟨u, hu, p, hp, hok, hk⟩
      rcases List.mem_cons.mp hu with rfl | hu'
      · have h1 : 1 ≤ countUid k st1.scene := hbody.2.2 p hp hok hk
        exact le_trans h1 (countUid_le_of_append hrest.1)
      · exact hrest.2.2 ⟨u, hu', p, hp, hok, hk⟩

theorem lightBody_textures (fs : ProjectFS) (l : LightEntry) (st : ImportState) :
    (lightBody fs l st).scene.textures = st.scene.textures := by
  cases hf : fs.lightFile l.json with
  | error e => simp [lightBody, hf]
  | ok p =>
    cases hs : l.shadowGenerator with
    | none => simp [lightBody, hf, hs]
    | some sg =>
      cases hw : fs.shadowFile sg with
      | error e => simp [lightBody, hf, hs, hw]
      | ok u => simp [lightBody, hf, hs, hw]

theorem loadLights_textures (fs : ProjectFS) (step : Rat) :
    ∀ (entries : List LightEntry) (st : ImportState),
    (loadLights fs step entries st).scene.textures = st.scene.textures := by
  intro entries
  induction entries with
  | nil => intro st; rfl
  | cons l rest ih =>
    intro st
    have hcons : loadLights fs step (l :: rest) st =
        loadLights fs step rest (spinnerTick step (lightBody fs l (pushEvent (.lightAttempt l.json) st))) := rfl
    rw [hcons, ih]
    simp [lightBody_textures]

theorem cameraBody_textures (fs : ProjectFS) (c : String) (st : ImportState) :
    (cameraBody fs c st).scene.textures = st.scene.textures := by
  cases hf : fs.cameraFile c with
  | error e => simp [cameraBody, hf]
  | ok p => simp [cameraBody, hf]

theorem loadCameras_textures (fs : ProjectFS) (step : Rat) :
    ∀ (names : List String) (st : ImportState),
    (loadCameras fs step names st).scene.textures = st.scene.textures := by
  intro names
  induction names with
  | nil => intro st; rfl
  | cons c rest ih =>
    intro st
    have hcons : loadCameras fs step (c :: rest) st =
        loadCameras fs step rest (spinnerTick step (cameraBody fs c (pushEvent (.cameraAttempt c) st))) := rfl
    rw [hcons, ih]
    simp [cameraBody_textures]

/-- **C3**: within the texture step, at most one live texture instance per
unique id is ever created when the scene starts with at most one: each entry
first resolves its serialized unique id in the scene and is skipped when an
instance exists, existing textures are kept (the step only appends), and a
duplicate-key list still yields exactly one instance; the steps that follow
the texture step (lights, cameras, parent linking) never touch the texture
collection, so the count is also the end-of-import count. -/
theorem c3_uniqueIdTextureDedup (fs : ProjectFS) (step : Rat) (names : List String)
    (st : ImportState) (k : Nat) (h0 : countUid k st.scene ≤ 1) :
    countUid k (loadTextures fs step names st).scene ≤ 1 ∧
    (∃ l, (loadTextures fs step names st).scene.textures = st.scene.textures ++ l) ∧
    ((∃ t ∈ names, ∃ p, fs.textureFile t = .ok p ∧ p.parseOk = true ∧ p.uniqueId = k) →
      countUid k (loadTextures fs step names st).scene = 1) ∧
    (∀ entries st2, (loadLights fs step entries st2).scene.textures = st2.scene.textures) ∧
    (∀ names2 st2, (loadCameras fs step names2 st2).scene.textures = st2.scene.textures) ∧
    (∀ s2, (linkParents s2).textures = s2.textures) := by
  have hspec := loadTextures_spec fs step k names st
  refine ⟨hspec.2.1 h0, hspec.1, ?_, loadLights_textures fs step, loadCameras_textures fs step,
    fun s2 => rfl⟩
  intro hex
  exact le_antisymm (hspec.2.1 h0) (hspec.2.2 hex)

/-- Witness for C3: two texture entries with unique id 5 produce exactly one
live texture. -/
theorem c3_uniqueIdTextureDedup_witness :
    countUid 5 (loadTextures uid5FS ((1 : Rat)/2) ["a", "b"] emptyState).scene = 1 :=
  (c3_uniqueIdTextureDedup uid5FS ((1 : Rat)/2) ["a", "b"] emptyState 5 (by decide)).2.2.1
    ⟨"a", by decide, { uniqueId := 5 }, rfl, rfl, rfl⟩

/-! ### C7: material-to-mesh binding -/

theorem setMaterialOnFirst_ids (bm mn : String) :
    ∀ l : List SNode, (setMaterialOnFirst bm mn l).map SNode.id = l.map SNode.id := by
  intro l
  induction l with
  | nil => rfl
  | cons a as ih =>
    cases ha : a.id == bm with
    | true => simp [setMaterialOnFirst, ha]
    | false => simp [setMaterialOnFirst, ha, ih]

theorem find?_id_isSome_congr :
    ∀ {l l' : List SNode}, l.map SNode.id = l'.map SNode.id → ∀ x : String,
    (l.find? (fun m => m.id == x)).isSome = (l'.find? (fun m => m.id == x)).isSome := by
  intro l
  induction l with
  | nil =>
    intro l' h x
    cases l' with
    | nil => rfl
    | cons b bs => simp at h
  | cons a as ih =>
    intro l' h x
    cases l' with
    | nil => simp at h
    | cons b bs =>
      simp at h
      obtain ⟨h1, h2⟩ := h
      cases hb : b.id == x with
      | true =>
        have ha : (a.id == x) = true := by rw [h1]; exact hb
        simp [List.find?, ha, hb]
      | false =>
        have ha : (a.id == x) = false := by rw [h1]; exact hb
        simp only [List.find?, ha, hb]
        exact ih h2 x

theorem getMeshByID_isSome_congr {s s' : Scene}
    (h : s.meshes.map SNode.id = s'.meshes.map SNode.id) (x : String) :
    (getMeshByID s x).isSome = (getMeshByID s' x).isSome := by
  unfold getMeshByID
  exact find?_id_isSome_congr h x

theorem setMaterialOnFirst_sets {bm : String} (mn : String) :
    ∀ {l : List SNode}, (l.find? (fun m => m.id == bm)).isSome = true →
    ∃ m ∈ setMaterialOnFirst bm mn l, m.id = bm ∧ m.material = some mn := by
  intro l
  induction l with
  | nil => intro h; simp [List.find?] at h
  | cons a as ih =>
    intro h
    cases ha : a.id == bm with
    | true =>
      have haid : a.id = bm := by simpa using ha
      have hset : setMaterialOnFirst bm mn (a :: as) =
          { a with material := some mn } :: as := by
        simp [setMaterialOnFirst, ha]
      exact ⟨{ a with material := some mn }, by rw [hset]; exact List.mem_cons_self _ _,
        haid, rfl⟩
    | false =>
      have h' : (as.find? (fun m => m.id == bm)).isSome = true := by
        simpa [List.find?, ha] using h
      rcases ih h' with ⟨m, hm, hmid, hmmat⟩
      have hset : setMaterialOnFirst bm mn (a :: as) =
          a :: setMaterialOnFirst bm mn as := by
        simp [setMaterialOnFirst, ha]
      exact ⟨m, by rw [hset]; exact List.mem_cons_of_mem _ hm, hmid, hmmat⟩

theorem setMaterialOnFirst_keeps {bm bm' mn : String} :
    ∀ {l : List SNode}, (∃ m ∈ l, m.id = bm ∧ m.material = some mn) →
    ∃ m ∈ setMaterialOnFirst bm' mn l, m.id = bm ∧ m.material = some mn := by
  intro l
  induction l with
  | nil => intro h; simp at h
  | cons a as ih =>
    intro h
    rcases h with ⟨m, hm, hmid, hmm⟩
    cases ha : a.id == bm' with
    | true =>
      have hset : setMaterialOnFirst bm' mn (a :: as) =
          { a with material := some mn } :: as := by
        simp [setMaterialOnFirst, ha]
      rcases List.mem_cons.mp hm with rfl | hmtail
      · exact ⟨{ m with material := some mn }, by rw [hset]; exact List.mem_cons_self _ _,
          hmid, rfl⟩
      · exact ⟨m, by rw [hset]; exact List.mem_cons_of_mem _ hmtail, hmid, hmm⟩
    | false =>
      have hset : setMaterialOnFirst bm' mn (a :: as) =
          a :: setMaterialOnFirst bm' mn as := by
        simp [setMaterialOnFirst, ha]
      rcases List.mem_cons.mp hm with rfl | hmtail
      · exact ⟨m, by rw [hset]; exact List.mem_cons_self _ _, hmid, hmm⟩
      · rcases ih ⟨m, hmtail, hmid, hmm⟩ with ⟨m', hm', hmid', hmm'⟩
        exact ⟨m', by rw [hset]; exact List.mem_cons_of_mem _ hm', hmid', hmm'⟩

theorem bindBody_ids (matName bm : String) (st : ImportState) :
    (bindBody matName bm st).scene.meshes.map SNode.id =
      st.scene.meshes.map SNode.id := by
  cases hg : getMeshByID st.scene bm with
  | some q => simp [bindBody, hg, setMaterialOnFirst_ids]
  | none => simp [bindBody, hg]

theorem bindBody_log_mono (matName bm : String) (st : ImportState) :
    ∃ l, (bindBody matName bm st).log = st.log ++ l := by
  cases hg : getMeshByID st.scene bm with
  | some q => exact ⟨[], by simp [bindBody, hg]⟩
  | none => exact ⟨[LogEvent.warning (bindFailMsg matName bm)],
      by simp [bindBody, hg]⟩

theorem bindMeshes_cons (matName bm : String) (bms : List String) (st : ImportState) :
    bindMeshes matName (bm :: bms) st =
      bindMeshes matName bms (bindBody matName bm st) := rfl

theorem bindMeshes_ids (matName : String) :
    ∀ (bms : List String) (st : ImportState),
    (bindMeshes matName bms st).scene.meshes.map SNode.id =
      st.scene.meshes.map SNode.id := by
  intro bms
  induction bms with
  | nil => intro st; rfl
  | cons b rest ih =>
    intro st
    rw [bindMeshes_cons, ih, bindBody_ids]

theorem bindMeshes_log_mono (matName : String) :
    ∀ (bms : List String) (st : ImportState),
    ∃ l, (bindMeshes matName bms st).log = st.log ++ l := by
  intro bms
  induction bms with
  | nil => intro st; exact ⟨[], by simp [bindMeshes]⟩
  | cons b rest ih =>
    intro st
    rcases ih (bindBody matName b st) with ⟨l2, hl2⟩
    rcases bindBody_log_mono matName b st with ⟨l1, hl1⟩
    exact ⟨l1 ++ l2, by rw [bindMeshes_cons, hl2, hl1, List.append_assoc]⟩

theorem bindMeshes_keeps (matName bm : String) :
    ∀ (bms : List String) (st : ImportState),
    (∃ m ∈ st.scene.meshes, m.id = bm ∧ m.material = some matName) →
    ∃ m ∈ (bindMeshes matName bms st).scene.meshes,
      m.id = bm ∧ m.material = some matName := by
  intro bms
  induction bms with
  | nil => intro st h; exact h
  | cons b rest ih =>
    intro st h
    rw [bindMeshes_cons]
    apply ih
    cases hg : getMeshByID st.scene b with
    | none => simpa [bindBody, hg] using h
    | some q =>
      have hmeq : (bindBody matName b st).scene.meshes =
          setMaterialOnFirst b matName st.scene.meshes := by
        simp [bindBody, hg]
      rw [hmeq]
      exact setMaterialOnFirst_keeps h

theorem bindMeshes_each (matName : String) :
    ∀ (bms : List String) (st : ImportState), ∀ bm ∈ bms,
      ((getMeshByID st.scene bm).isSome = true →
        ∃ m ∈ (bindMeshes matName bms st).scene.meshes,
          m.id = bm ∧ m.material = some matName) ∧
      (getMeshByID st.scene bm = none →
        LogEvent.warning (bindFailMsg matName bm) ∈ (bindMeshes matName bms st).log) := by
  intro bms
  induction bms with
  | nil => intro st bm hbm; simp at hbm
  | cons bm0 rest ih =>
    intro st bm hbm
    rcases List.mem_cons.mp hbm with rfl | htail
    · constructor
      · intro hsome
        have hset : (bindBody matName bm st).scene.meshes =
            setMaterialOnFirst bm matName st.scene.meshes := by
          rcases Option.isSome_iff_exists.mp hsome with ⟨q, hq⟩
          simp [bindBody, hq]
        have hprop : ∃ m ∈ (bindBody matName bm st).scene.meshes,
            m.id = bm ∧ m.material = some matName := by
          rw [hset]
          exact setMaterialOnFirst_sets matName hsome
        rw [bindMeshes_cons]
        exact bindMeshes_keeps matName bm rest _ hprop
      · intro hnone
        have hset : bindBody matName bm st =
            pushLog [LogEvent.warning (bindFailMsg matName bm)] st := by
          simp [bindBody, hnone]
        rcases bindMeshes_log_mono matName rest (bindBody matName bm st) with ⟨l, hl⟩
        rw [bindMeshes_cons, hl, hset]
        simp
    · have hids : (bindBody matName bm0 st).scene.meshes.map SNode.id =
          st.scene.meshes.map SNode.id := bindBody_ids matName bm0 st
      have hiff : (getMeshByID (bindBody matName bm0 st).scene bm).isSome =
          (getMeshByID st.scene bm).isSome := getMeshByID_isSome_congr hids bm
      constructor
      · intro hsome
        have hsome' : (getMeshByID (bindBody matName bm0 st).scene bm).isSome = true := by
          rw [hiff]; exact hsome
        rw [bindMeshes_cons]
        exact ((ih (bindBody matName bm0 st) bm htail).1) hsome'
      · intro hnone
        have hnone' : getMeshByID (bindBody matName bm0 st).scene bm = none := by
          have h2 : (getMeshByID (bindBody matName bm0 st).scene bm).isSome = false := by
            rw [hiff, hnone]; rfl
          cases hx : getMeshByID (bindBody matName bm0 st).scene bm with
          | none => rfl
          | some q => rw [hx] at h2; simp at h2
        rw [bindMeshes_cons]
        exact ((ih (bindBody matName bm0 st) bm htail).2) hnone'

/-- **C7**: each bound mesh id of a material is resolved by id lookup in the
current scene: a hit assigns the material to a mesh with that id, a miss logs
the warning naming the material and the mesh id and skips just that binding;
the loop never removes or re-identifies meshes, only appends to the log, and
is a total function — neither the other bindings nor the rest of the import
is aborted. -/
theorem c7_materialBindingResolution (matName : String) (bms : List String)
    (st : ImportState) :
    (∀ bm ∈ bms,
      ((getMeshByID st.scene bm).isSome = true →
        ∃ m ∈ (bindMeshes matName bms st).scene.meshes,
          m.id = bm ∧ m.material = some matName) ∧
      (getMeshByID st.scene bm = none →
        LogEvent.warning (bindFailMsg matName bm) ∈ (bindMeshes matName bms st).log)) ∧
    (bindMeshes matName bms st).scene.meshes.map SNode.id =
      st.scene.meshes.map SNode.id ∧
    (∃ l, (bindMeshes matName bms st).log = st.log ++ l) :=
  ⟨bindMeshes_each matName bms st, bindMeshes_ids matName bms st,
    bindMeshes_log_mono matName bms st⟩

/-- Witness for C7: binding "mat" to the existing mesh "ida" succeeds and the
missing id "nope" is answered by exactly the warning, nothing aborted. -/
theorem c7_materialBindingResolution_witness :
    (∃ m ∈ (bindMeshes "mat" ["ida", "nope"] bindState).scene.meshes,
      m.id = "ida" ∧ m.material = some "mat") ∧
    LogEvent.warning (bindFailMsg "mat" "nope") ∈
      (bindMeshes "mat" ["ida", "nope"] bindState).log :=
  ⟨((c7_materialBindingResolution "mat" ["ida", "nope"] bindState).1 "ida"
      (by decide)).1 (by decide),
   ((c7_materialBindingResolution "mat" ["ida", "nope"] bindState).1 "nope"
      (by decide)).2 (by decide)⟩

/-! ### C6: isolation of one corrupted mesh -/

theorem importLod_good (name bn : String) (lod : LodOutcome)
    (h1 : lod.ok = true) (h2 : lod.hasMesh = true) :
    ∃ logs, importLod name (some bn) lod = .ok logs ∧
      ∀ e ∈ logs, e.isError = false := by
  refine ⟨[LogEvent.info s!"Parsed LOD level \"{lod.lodName}\" for mesh \"{name}\""], ?_, ?_⟩
  · simp [importLod, h1, h2]
  · intro e he
    simp at he
    subst he
    rfl

theorem lodsFold_good (name bn : String) :
    ∀ (lods : List LodOutcome),
    (∀ lod ∈ lods, lod.ok = true ∧ lod.hasMesh = true) →
    ∀ acc : List LogEvent,
    ∃ logs, lods.foldlM
        (fun acc lod => (importLod name (some bn) lod).map (fun l => acc ++ l)) acc
      = .ok logs ∧ ∀ e ∈ logs, e ∈ acc ∨ e.isError = false := by
  intro lods
  induction lods with
  | nil =>
    intro _ acc
    exact ⟨acc, rfl, fun e he => Or.inl he⟩
  | cons lod rest ih =>
    intro hall acc
    obtain ⟨hok, hm⟩ := hall lod (List.mem_cons_self _ _)
    rcases importLod_good name bn lod hok hm with ⟨l1, hl1, hne⟩
    rcases ih (fun l hl => hall l (List.mem_cons_of_mem _ hl)) (acc ++ l1) with
      ⟨logs, hg, hprop⟩
    refine ⟨logs, ?_, ?_⟩
    · have hstep : (importLod name (some bn) lod).map (fun l => acc ++ l) =
          .ok (acc ++ l1) := by rw [hl1]; rfl
      rw [List.foldlM_cons, hstep]
      exact hg
    · intro e he
      rcases hprop e he with hacc | hne'
      · rcases List.mem_append.mp hacc with h | h
        · exact Or.inl h
        · exact Or.inr (hne e h)
      · exact Or.inr hne'

theorem ImportMesh_good (name : String) (payload : MeshPayload) (scene : Scene)
    (hne : payload.meshes ≠ [])
    (hlods : ∀ lod ∈ payload.lods, lod.ok = true ∧ lod.hasMesh = true) :
    ∃ logs, ImportMesh name payload scene =
      .ok ({ scene with meshes := scene.meshes ++ payload.meshes.map meshNodeOf }, logs) ∧
      ∀ e ∈ logs, e.isError = false := by
  obtain ⟨d, drest, hd⟩ : ∃ d drest, payload.meshes = d :: drest := by
    cases hx : payload.meshes with
    | nil => exact absurd hx hne
    | cons d r => exact ⟨d, r, rfl⟩
  have hbase : payload.meshes.head?.map MeshDesc.name = some d.name := by rw [hd]; rfl
  rcases lodsFold_good name d.name payload.lods hlods [] with ⟨logs, hfold, hprop⟩
  refine ⟨LogEvent.info s!"Parsed mesh \"{name}\"" :: logs, ?_, ?_⟩
  · simp only [ImportMesh]
    rw [hbase, hfold]
    simp
  · intro e he
    rcases List.mem_cons.mp he with rfl | h
    · rfl
    · rcases hprop e h with h' | h'
      · simp at h'
      · exact h'

theorem ImportMesh_ok_scene {name : String} {payload : MeshPayload} {scene sc : Scene}
    {logs : List LogEvent}
    (h : ImportMesh name payload scene = .ok (sc, logs)) :
    sc = { scene with meshes := scene.meshes ++ payload.meshes.map meshNodeOf } := by
  simp only [ImportMesh] at h
  split at h
  · simp at h
    exact h.1.symm
  · simp at h

theorem meshBody_bad (fs : ProjectFS) (m : String) (st : ImportState)
    (hbad : fs.meshFile m = .error ()) :
    meshBody fs m st = pushLog [LogEvent.error (meshFailMsg m)] st := by
  simp [meshBody, hbad]

theorem meshBody_good (fs : ProjectFS) (m : String) (st : ImportState)
    (p : MeshPayload) (hok : fs.meshFile m = .ok p) (hne : p.meshes ≠ [])
    (hlods : ∀ lod ∈ p.lods, lod.ok = true ∧ lod.hasMesh = true) :
    (meshBody fs m st).scene.meshes = st.scene.meshes ++ p.meshes.map meshNodeOf ∧
    ∃ added, (meshBody fs m st).log = st.log ++ added ∧
      ∀ e ∈ added, e.isError = false := by
  rcases ImportMesh_good m p st.scene hne hlods with ⟨logs, him, hprop⟩
  constructor
  · simp [meshBody, hok, him]
  · exact ⟨logs, by simp [meshBody, hok, him], hprop⟩

theorem meshBody_meshes_mono (fs : ProjectFS) (m : String) (st : ImportState) :
    ∃ l, (meshBody fs m st).scene.meshes = st.scene.meshes ++ l := by
  cases hf : fs.meshFile m with
  | error e => exact ⟨[], by simp [meshBody, hf]⟩
  | ok p =>
    cases him : ImportMesh m p st.scene with
    | error logs => exact ⟨[], by simp [meshBody, hf, him]⟩
    | ok r =>
      obtain ⟨sc, logs⟩ := r
      have hsc := ImportMesh_ok_scene him
      exact ⟨p.meshes.map meshNodeOf, by simp [meshBody, hf, him, hsc]⟩

theorem meshBody_log_mono (fs : ProjectFS) (m : String) (st : ImportState) :
    ∃ l, (meshBody fs m st).log = st.log ++ l := by
  cases hf : fs.meshFile m with
  | error e => exact ⟨[LogEvent.error (meshFailMsg m)], by simp [meshBody, hf]⟩
  | ok p =>
    cases him : ImportMesh m p st.scene with
    | error logs => exact ⟨logs ++ [LogEvent.error (meshFailMsg m)],
        by simp [meshBody, hf, him]⟩
    | ok r =>
      obtain ⟨sc, logs⟩ := r
      exact ⟨logs, by simp [meshBody, hf, him]⟩

theorem meshBody_spin (fs : ProjectFS) (m : String) (st : ImportState) :
    (meshBody fs m st).spinner = st.spinner ∧
    (meshBody fs m st).spinnerValue = st.spinnerValue ∧
    (meshBody fs m st).texSkips = st.texSkips := by
  cases hf : fs.meshFile m with
  | error e => simp [meshBody, hf]
  | ok p =>
    cases him : ImportMesh m p st.scene with
    | error logs => simp [meshBody, hf, him]
    | ok r =>
      obtain ⟨sc, logs⟩ := r
      simp [meshBody, hf, him]

theorem loadMeshes_cons (fs : ProjectFS) (step : Rat) (m : String)
    (rest : List String) (st : ImportState) :
    loadMeshes fs step (m :: rest) st =
      loadMeshes fs step rest
        (spinnerTick step (meshBody fs m (pushEvent (.meshAttempt m) st))) := rfl

theorem loadMeshes_append (fs : ProjectFS) (step : Rat) (l1 l2 : List String)
    (st : ImportState) :
    loadMeshes fs step (l1 ++ l2) st = loadMeshes fs step l2 (loadMeshes fs step l1 st) := by
  unfold loadMeshes
  rw [List.foldl_append]

theorem loadMeshes_meshes_mono (fs : ProjectFS) (step : Rat) :
    ∀ (names : List String) (st : ImportState),
    ∃ l, (loadMeshes fs step names st).scene.meshes = st.scene.meshes ++ l := by
  intro names
  induction names with
  | nil => intro st; exact ⟨[], by simp [loadMeshes]⟩
  | cons m rest ih =>
    intro st
    rcases meshBody_meshes_mono fs m (pushEvent (.meshAttempt m) st) with ⟨l1, hl1⟩
    rcases ih (spinnerTick step (meshBody fs m (pushEvent (.meshAttempt m) st))) with ⟨l2, hl2⟩
    refine ⟨l1 ++ l2, ?_⟩
    rw [loadMeshes_cons, hl2]
    simp only [spinnerTick_scene]
    rw [hl1]
    simp [List.append_assoc]

theorem loadMeshes_log_mono (fs : ProjectFS) (step : Rat) :
    ∀ (names : List String) (st : ImportState),
    ∃ l, (loadMeshes fs step names st).log = st.log ++ l := by
  intro names
  induction names with
  | nil => intro st; exact ⟨[], by simp [loadMeshes]⟩
  | cons m rest ih =>
    intro st
    rcases meshBody_log_mono fs m (pushEvent (.meshAttempt m) st) with ⟨l1, hl1⟩
    rcases ih (spinnerTick step (meshBody fs m (pushEvent (.meshAttempt m) st))) with ⟨l2, hl2⟩
    refine ⟨l1 ++ l2, ?_⟩
    rw [loadMeshes_cons, hl2]
    simp only [spinnerTick_log]
    rw [hl1]
    simp [List.append_assoc]

theorem loadMeshes_spinner_len (fs : ProjectFS) (step : Rat) :
    ∀ (names : List String) (st : ImportState),
    (loadMeshes fs step names st).spinner.length = st.spinner.length + names.length := by
  intro names
  induction names with
  | nil => intro st; simp [loadMeshes]
  | cons m rest ih =>
    intro st
    rw [loadMeshes_cons, ih]
    have hspin := (meshBody_spin fs m (pushEvent (.meshAttempt m) st)).1
    simp [hspin]
    omega

theorem loadMeshes_good (fs : ProjectFS) (step : Rat) :
    ∀ (names : List String) (st : ImportState),
    (∀ t ∈ names, ∃ p, fs.meshFile t = .ok p ∧ p.meshes ≠ [] ∧
      ∀ lod ∈ p.lods, lod.ok = true ∧ lod.hasMesh = true) →
    (∃ added, (loadMeshes fs step names st).log = st.log ++ added ∧
      ∀ e ∈ added, e.isError = false) ∧
    (∀ t ∈ names, ∀ p, fs.meshFile t = .ok p → ∀ d ∈ p.meshes,
      meshNodeOf d ∈ (loadMeshes fs step names st).scene.meshes) := by
  intro names
  induction names with
  | nil =>
    intro st _
    refine ⟨⟨[], by simp [loadMeshes], by simp⟩, ?_⟩
    intro t ht
    simp at ht
  | cons t rest ih =>
    intro st hgood
    obtain ⟨p, hp, hne, hlods⟩ := hgood t (List.mem_cons_self _ _)
    have hbody := meshBody_good fs t (pushEvent (.meshAttempt t) st) p hp hne hlods
    have hrest := ih (spinnerTick step (meshBody fs t (pushEvent (.meshAttempt t) st)))
      (fun u hu => hgood u (List.mem_cons_of_mem _ hu))
    constructor
    · rcases hbody.2 with ⟨a1, ha1, hne1⟩
      rcases hrest.1 with ⟨a2, ha2, hne2⟩
      refine ⟨a1 ++ a2, ?_, ?_⟩
      · rw [loadMeshes_cons, ha2]
        simp only [spinnerTick_log]
        rw [ha1]
        simp [List.append_assoc]
      · intro e he
        rcases List.mem_append.mp he with h | h
        · exact hne1 e h
        · exact hne2 e h
    · intro u hu p' hp' d hd
      rcases List.mem_cons.mp hu with rfl | hu'
      · have hpp : p' = p := by
          rw [hp] at hp'
          exact (Except.ok.inj hp').symm
        subst hpp
        have hmem1 : meshNodeOf d ∈
            (meshBody fs u (pushEvent (.meshAttempt u) st)).scene.meshes := by
          rw [hbody.1]
          exact List.mem_append.mpr (Or.inr (List.mem_map_of_mem _ hd))
        rcases loadMeshes_meshes_mono fs step rest
          (spinnerTick step (meshBody fs u (pushEvent (.meshAttempt u) st))) with ⟨l, hl⟩
        rw [loadMeshes_cons, hl]
        simp only [spinnerTick_scene]
        exact List.mem_append.mpr (Or.inl hmem1)
      · exact hrest.2 u hu' p' hp' d hd

/-- **C6**: in a mesh list where exactly one entry `b` has a
missing/corrupted file and every other entry loads cleanly, the step
completes (it is a total function: no later step is aborted), every other
listed mesh's nodes are installed in the scene, the only error event emitted
by the step is the one tagged with `b`'s name, and the spinner is advanced
once per entry — the failed one included. -/
theorem c6_singleMeshFailureIsolation (fs : ProjectFS) (step : Rat)
    (names : List String) (st : ImportState) (b : String)
    (hmem : b ∈ names) (hcount : names.count b = 1)
    (hbad : fs.meshFile b = .error ())
    (hgood : ∀ t ∈ names, t ≠ b → ∃ p, fs.meshFile t = .ok p ∧ p.meshes ≠ [] ∧
      ∀ lod ∈ p.lods, lod.ok = true ∧ lod.hasMesh = true) :
    (∃ added, (loadMeshes fs step names st).log = st.log ++ added ∧
      added.filter LogEvent.isError = [LogEvent.error (meshFailMsg b)]) ∧
    (∀ t ∈ names, t ≠ b → ∀ p, fs.meshFile t = .ok p → ∀ d ∈ p.meshes,
      meshNodeOf d ∈ (loadMeshes fs step names st).scene.meshes) ∧
    (loadMeshes fs step names st).spinner.length = st.spinner.length + names.length := by
  rcases List.append_of_mem hmem with ⟨l1, l2, rfl⟩
  have hc : l1.count b = 0 ∧ l2.count b = 0 := by
    rw [List.count_append, List.count_cons_self] at hcount
    omega
  have hb1 : b ∉ l1 := List.count_eq_zero.mp hc.1
  have hb2 : b ∉ l2 := List.count_eq_zero.mp hc.2
  have hgood1 : ∀ t ∈ l1, ∃ p, fs.meshFile t = .ok p ∧ p.meshes ≠ [] ∧
      ∀ lod ∈ p.lods, lod.ok = true ∧ lod.hasMesh = true := by
    intro t ht
    exact hgood t (List.mem_append.mpr (Or.inl ht))
      (fun he => hb1 (he ▸ ht))
  have hgood2 : ∀ t ∈ l2, ∃ p, fs.meshFile t = .ok p ∧ p.meshes ≠ [] ∧
      ∀ lod ∈ p.lods, lod.ok = true ∧ lod.hasMesh = true := by
    intro t ht
    exact hgood t (List.mem_append.mpr (Or.inr (List.mem_cons_of_mem _ ht)))
      (fun he => hb2 (he ▸ ht))
  -- name the pipeline states
  set st1 := loadMeshes fs step l1 st with hst1
  set st2 := spinnerTick step (meshBody fs b (pushEvent (.meshAttempt b) st1)) with hst2
  have hsplit : loadMeshes fs step (l1 ++ b :: l2) st = loadMeshes fs step l2 st2 := by
    rw [loadMeshes_append, loadMeshes_cons]
  have hg1 := loadMeshes_good fs step l1 st hgood1
  have hg2 := loadMeshes_good fs step l2 st2 hgood2
  have hbadlog : st2.log = st1.log ++ [LogEvent.error (meshFailMsg b)] := by
    rw [hst2, meshBody_bad fs b _ hbad]
    simp
  refine ⟨?_, ?_, ?_⟩
  · rcases hg1.1 with ⟨a1, ha1, hne1⟩
    rcases hg2.1 with ⟨a2, ha2, hne2⟩
    refine ⟨a1 ++ [LogEvent.error (meshFailMsg b)] ++ a2, ?_, ?_⟩
    · rw [hsplit, ha2, hbadlog, ha1]
      simp [List.append_assoc]
    · rw [List.filter_append, List.filter_append]
      have hf1 : a1.filter LogEvent.isError = [] :=
        List.filter_eq_nil_iff.mpr (fun e he => by simp [hne1 e he])
      have hf2 : a2.filter LogEvent.isError = [] :=
        List.filter_eq_nil_iff.mpr (fun e he => by simp [hne2 e he])
      rw [hf1, hf2]
      simp [LogEvent.isError]
  · intro t ht htb p hp d hd
    rcases List.mem_append.mp ht with h1 | h12
    · -- loaded during l1, persists through the bad step and l2
      have hmem1 : meshNodeOf d ∈ st1.scene.meshes := hg1.2 t h1 p hp d hd
      have hmem2 : meshNodeOf d ∈ st2.scene.meshes := by
        rw [hst2, meshBody_bad fs b _ hbad]
        simpa using hmem1
      rcases loadMeshes_meshes_mono fs step l2 st2 with ⟨l, hl⟩
      rw [hsplit, hl]
      exact List.mem_append.mpr (Or.inl hmem2)
    · rcases List.mem_cons.mp h12 with rfl | h2
      · exact absurd rfl htb
      · rw [hsplit]
        exact hg2.2 t h2 p hp d hd
  · rw [hsplit, loadMeshes_spinner_len, hst2]
    simp only [spinnerTick_spinner, List.length_append, List.length_singleton]
    have hspin := (meshBody_spin fs b (pushEvent (.meshAttempt b) st1)).1
    rw [hspin]
    simp only [pushEvent_spinner]
    rw [hst1, loadMeshes_spinner_len]
    simp
    omega

/-- Witness for C6: of the meshes ["g1", "bad", "g2"] only "bad" fails; the
other two are installed, exactly its error is logged, progress ticks three
times. -/
theorem c6_singleMeshFailureIsolation_witness :
    (∃ added, (loadMeshes oneBadOfThreeFS 1 ["g1", "bad", "g2"] emptyState).log =
      emptyState.log ++ added ∧
      added.filter LogEvent.isError = [LogEvent.error (meshFailMsg "bad")]) ∧
    (∀ t ∈ ["g1", "bad", "g2"], t ≠ "bad" → ∀ p, oneBadOfThreeFS.meshFile t = .ok p →
      ∀ d ∈ p.meshes, meshNodeOf d ∈
        (loadMeshes oneBadOfThreeFS 1 ["g1", "bad", "g2"] emptyState).scene.meshes) ∧
    (loadMeshes oneBadOfThreeFS 1 ["g1", "bad", "g2"] emptyState).spinner.length =
      emptyState.spinner.length + (["g1", "bad", "g2"] : List String).length :=
  c6_singleMeshFailureIsolation oneBadOfThreeFS 1 ["g1", "bad", "g2"] emptyState "bad"
    (by decide) (by decide) rfl
    (by
      intro t ht htb
      rcases List.mem_cons.mp ht with rfl | ht'
      · exact ⟨{ meshes := [{ id := "g1" ++ "-id", name := "g1" }] }, rfl, by decide,
          by intro lod hl; simp at hl⟩
      · rcases List.mem_cons.mp ht' with rfl | ht''
        · exact absurd rfl htb
        · rcases List.mem_cons.mp ht'' with rfl | ht3
          · exact ⟨{ meshes := [{ id := "g2" ++ "-id", name := "g2" }] }, rfl, by decide,
              by intro lod hl; simp at hl⟩
          · simp at ht3)

/-! ### C8: all meshes are attempted before any material -/

theorem mesh_not_material {e : Event} (h : e.isMeshAttempt = true) :
    e.isMaterialAttempt = false := by
  cases e <;> simp_all [Event.isMeshAttempt, Event.isMaterialAttempt]

theorem material_not_mesh {e : Event} (h : e.isMaterialAttempt = true) :
    e.isMeshAttempt = false := by
  cases e <;> simp_all [Event.isMeshAttempt, Event.isMaterialAttempt]

theorem filter_all_true {p : Event → Bool} {l : List Event}
    (h : ∀ e ∈ l, p e = true) : l.filter p = l :=
  List.filter_eq_self.mpr h

theorem filter_all_false {p : Event → Bool} {l : List Event}
    (h : ∀ e ∈ l, p e = false) : l.filter p = [] :=
  List.filter_eq_nil_iff.mpr (fun e he => by simp [h e he])

theorem foldl_trace_const {α : Type} (g : α → ImportState → ImportState)
    (hg : ∀ a st, (g a st).trace = st.trace) :
    ∀ (l : List α) (st : ImportState),
    (l.foldl (fun st a => g a st) st).trace = st.trace := by
  intro l
  induction l with
  | nil => intro st; rfl
  | cons a rest ih =>
    intro st
    show (rest.foldl _ (g a st)).trace = st.trace
    rw [ih, hg]

theorem foldl_trace_events {α : Type} (f : α → ImportState → ImportState)
    (ev : α → Event) (hf : ∀ a st, (f a st).trace = st.trace)
    (P : Event → Bool) (hP : ∀ a, P (ev a) = true) :
    ∀ (l : List α) (st : ImportState),
    ∃ tr, (l.foldl (fun st a => f a (pushEvent (ev a) st)) st).trace = st.trace ++ tr ∧
      ∀ e ∈ tr, P e = true := by
  intro l
  induction l with
  | nil => intro st; exact ⟨[], by simp, by simp⟩
  | cons a rest ih =>
    intro st
    rcases ih (f a (pushEvent (ev a) st)) with ⟨tr, htr, hall⟩
    refine ⟨ev a :: tr, ?_, ?_⟩
    · show (rest.foldl _ (f a (pushEvent (ev a) st))).trace = _
      rw [htr, hf]
      simp
    · intro e he
      rcases List.mem_cons.mp he with rfl | h
      · exact hP a
      · exact hall e h

theorem meshBody_trace (fs : ProjectFS) (m : String) (st : ImportState) :
    (meshBody fs m st).trace = st.trace := by
  cases hf : fs.meshFile m with
  | error e => simp [meshBody, hf]
  | ok p =>
    cases him : ImportMesh m p st.scene with
    | error logs => simp [meshBody, hf, him]
    | ok r =>
      obtain ⟨sc, logs⟩ := r
      simp [meshBody, hf, him]

theorem transformBody_trace (fs : ProjectFS) (t : String) (st : ImportState) :
    (transformBody fs t st).trace = st.trace := by
  cases hf : fs.transformFile t with
  | error e => simp [transformBody, hf]
  | ok p => simp [transformBody, hf]

theorem bindBody_trace (matName bm : String) (st : ImportState) :
    (bindBody matName bm st).trace = st.trace := by
  cases hg : getMeshByID st.scene bm with
  | some q => simp [bindBody, hg]
  | none => simp [bindBody, hg]

theorem bindMeshes_trace (matName : String) :
    ∀ (bms : List String) (st : ImportState),
    (bindMeshes matName bms st).trace = st.trace := by
  intro bms
  induction bms with
  | nil => intro st; rfl
  | cons b rest ih =>
    intro st
    rw [bindMeshes_cons, ih, bindBody_trace]

theorem materialBody_trace (fs : ProjectFS) (m : MaterialEntry) (st : ImportState) :
    (materialBody fs m st).trace = st.trace := by
  cases hf : fs.materialFile m.json with
  | error e => simp [materialBody, hf]
  | ok p => simp [materialBody, hf, bindMeshes_trace]

theorem textureBody_trace (fs : ProjectFS) (step : Rat) (t : String) (st : ImportState) :
    (textureBody fs step t st).trace = st.trace := by
  cases hf : fs.textureFile t with
  | error e => simp [textureBody, hf]
  | ok p =>
    cases hg : getTextureByUniqueID st.scene p.uniqueId with
    | some tex => simp [textureBody, hf, hg]
    | none =>
      by_cases hok : p.parseOk = true
      · simp [textureBody, hf, hg, hok]
      · have hokf : p.parseOk = false := by simpa using hok
        simp [textureBody, hf, hg, hokf]

theorem lightBody_trace (fs : ProjectFS) (l : LightEntry) (st : ImportState) :
    (lightBody fs l st).trace = st.trace := by
  cases hf : fs.lightFile l.json with
  | error e => simp [lightBody, hf]
  | ok p =>
    cases hs : l.shadowGenerator with
    | none => simp [lightBody, hf, hs]
    | some sg =>
      cases hw : fs.shadowFile sg with
      | error e => simp [lightBody, hf, hs, hw]
      | ok u => simp [lightBody, hf, hs, hw]

theorem cameraBody_trace (fs : ProjectFS) (c : String) (st : ImportState) :
    (cameraBody fs c st).trace = st.trace := by
  cases hf : fs.cameraFile c with
  | error e => simp [cameraBody, hf]
  | ok p => simp [cameraBody, hf]

theorem loadPhysics_trace (fs : ProjectFS) (st : ImportState) :
    (loadPhysics fs st).trace = st.trace := by
  cases hp : fs.physicsEngine with
  | none => simp [loadPhysics, hp]
  | some imp =>
    show (loadPhysics fs st).trace = st.trace
    simp only [loadPhysics, hp]
    exact foldl_trace_const
      (fun m acc =>
        let nm := m.name
        match imp m with
        | .ok _ => pushLog [LogEvent.info s!"Parsed physics impostor for mesh \"{nm}\""] acc
        | .error _ => pushLog [LogEvent.error s!"Failed to set physics impostor for mesh \"{nm}\""] acc)
      (fun a acc => by
        cases himp : imp a with
        | ok u => simp [himp]
        | error e => simp [himp])
      st.scene.meshes st

theorem loadMeshes_trace (fs : ProjectFS) (step : Rat) (names : List String)
    (st : ImportState) :
    ∃ tr, (loadMeshes fs step names st).trace = st.trace ++ tr ∧
      ∀ e ∈ tr, e.isMeshAttempt = true :=
  foldl_trace_events (fun m st => spinnerTick step (meshBody fs m st))
    (fun m => .meshAttempt m)
    (fun a st => by rw [spinnerTick_trace, meshBody_trace])
    Event.isMeshAttempt (fun a => rfl) names st

theorem loadTransformNodes_trace (fs : ProjectFS) (names : List String)
    (st : ImportState) :
    ∃ tr, (loadTransformNodes fs names st).trace = st.trace ++ tr ∧
      ∀ e ∈ tr, (!(e.isMeshAttempt || e.isMaterialAttempt)) = true :=
  foldl_trace_events (fun t st => transformBody fs t st)
    (fun t => .transformAttempt t)
    (fun a st => by rw [transformBody_trace])
    (fun e => !(e.isMeshAttempt || e.isMaterialAttempt)) (fun a => rfl) names st

theorem loadMaterials_trace (fs : ProjectFS) (step : Rat)
    (entries : List MaterialEntry) (st : ImportState) :
    ∃ tr, (loadMaterials fs step entries st).trace = st.trace ++ tr ∧
      ∀ e ∈ tr, e.isMaterialAttempt = true :=
  foldl_trace_events (fun m st => spinnerTick step (materialBody fs m st))
    (fun m => .materialAttempt m.json)
    (fun a st => by rw [spinnerTick_trace, materialBody_trace])
    Event.isMaterialAttempt (fun a => rfl) entries st

theorem loadTextures_trace (fs : ProjectFS) (step : Rat) (names : List String)
    (st : ImportState) :
    ∃ tr, (loadTextures fs step names st).trace = st.trace ++ tr ∧
      ∀ e ∈ tr, (!(e.isMeshAttempt || e.isMaterialAttempt)) = true :=
  foldl_trace_events (fun t st => textureBody fs step t st)
    (fun t => .textureAttempt t)
    (fun a st => by rw [textureBody_trace])
    (fun e => !(e.isMeshAttempt || e.isMaterialAttempt)) (fun a => rfl) names st

theorem loadLights_trace (fs : ProjectFS) (step : Rat) (entries : List LightEntry)
    (st : ImportState) :
    ∃ tr, (loadLights fs step entries st).trace = st.trace ++ tr ∧
      ∀ e ∈ tr, (!(e.isMeshAttempt || e.isMaterialAttempt)) = true :=
  foldl_trace_events (fun l st => spinnerTick step (lightBody fs l st))
    (fun l => .lightAttempt l.json)
    (fun a st => by rw [spinnerTick_trace, lightBody_trace])
    (fun e => !(e.isMeshAttempt || e.isMaterialAttempt)) (fun a => rfl) entries st

theorem loadCameras_trace (fs : ProjectFS) (step : Rat) (names : List String)
    (st : ImportState) :
    ∃ tr, (loadCameras fs step names st).trace = st.trace ++ tr ∧
      ∀ e ∈ tr, (!(e.isMeshAttempt || e.isMaterialAttempt)) = true :=
  foldl_trace_events (fun c st => spinnerTick step (cameraBody fs c st))
    (fun c => .cameraAttempt c)
    (fun a st => by rw [spinnerTick_trace, cameraBody_trace])
    (fun e => !(e.isMeshAttempt || e.isMaterialAttempt)) (fun a => rfl) names st

theorem materialBody_mesh_ids (fs : ProjectFS) (m : MaterialEntry) (st : ImportState) :
    (materialBody fs m st).scene.meshes.map SNode.id =
      st.scene.meshes.map SNode.id := by
  cases hf : fs.materialFile m.json with
  | error e => simp [materialBody, hf]
  | ok p => simp [materialBody, hf, bindMeshes_ids]

theorem loadMaterials_mesh_ids (fs : ProjectFS) (step : Rat) :
    ∀ (entries : List MaterialEntry) (st : ImportState),
    (loadMaterials fs step entries st).scene.meshes.map SNode.id =
      st.scene.meshes.map SNode.id := by
  intro entries
  induction entries with
  | nil => intro st; rfl
  | cons m rest ih =>
    intro st
    have hcons : loadMaterials fs step (m :: rest) st =
        loadMaterials fs step rest
          (spinnerTick step (materialBody fs m (pushEvent (.materialAttempt m.json) st))) := rfl
    rw [hcons, ih]
    simp only [spinnerTick_scene]
    rw [materialBody_mesh_ids]
    rfl

/-- **C8**: in every completed import, the trace of per-entity attempts puts
every mesh attempt before every material attempt (filtering the trace to
mesh/material attempts yields the mesh attempts followed by the material
attempts), and the material step never adds, removes or re-identifies scene
meshes — the mesh set it observes is the fully-populated, stable set left by
the mesh step. -/
theorem c8_meshesBeforeMaterials (fs : ProjectFS) (sc : Scene) (st : ImportState)
    (h : _ImportProject fs sc = .ok st)
    (fs₂ : ProjectFS) (step₂ : Rat) (entries₂ : List MaterialEntry)
    (st₂ : ImportState) :
    st.trace.filter (fun e => e.isMeshAttempt || e.isMaterialAttempt) =
      st.trace.filter Event.isMeshAttempt ++ st.trace.filter Event.isMaterialAttempt ∧
    (loadMaterials fs₂ step₂ entries₂ st₂).scene.meshes.map SNode.id =
      st₂.scene.meshes.map SNode.id := by
  refine ⟨?_, loadMaterials_mesh_ids fs₂ step₂ entries₂ st₂⟩
  rcases _ImportProject_ok_inv h with ⟨project, hm, rfl⟩
  rcases loadMeshes_trace fs (spinnerStep project) project.meshes
    (initState project sc) with ⟨tm, htm, hTm⟩
  rcases loadTransformNodes_trace fs (project.transformNodes.getD [])
    (loadMeshes fs (spinnerStep project) project.meshes
      (initState project sc)) with ⟨tt, htt, hTt⟩
  rcases loadMaterials_trace fs (spinnerStep project) project.materials
    (loadPhysics fs
      (loadTransformNodes fs (project.transformNodes.getD [])
        (loadMeshes fs (spinnerStep project) project.meshes
          (initState project sc)))) with ⟨tmat, htmat, hTmat⟩
  rcases loadTextures_trace fs (spinnerStep project) project.textures
    (loadMaterials fs (spinnerStep project) project.materials
      (loadPhysics fs
        (loadTransformNodes fs (project.transformNodes.getD [])
          (loadMeshes fs (spinnerStep project) project.meshes
            (initState project sc))))) with ⟨ttex, htex, hTtex⟩
  rcases loadLights_trace fs (spinnerStep project) project.lights
    (loadTextures fs (spinnerStep project) project.textures
      (loadMaterials fs (spinnerStep project) project.materials
        (loadPhysics fs
          (loadTransformNodes fs (project.transformNodes.getD [])
            (loadMeshes fs (spinnerStep project) project.meshes
              (initState project sc)))))) with ⟨tl, htl, hTl⟩
  rcases loadCameras_trace fs (spinnerStep project) project.cameras
    (loadLights fs (spinnerStep project) project.lights
      (loadTextures fs (spinnerStep project) project.textures
        (loadMaterials fs (spinnerStep project) project.materials
          (loadPhysics fs
            (loadTransformNodes fs (project.transformNodes.getD [])
              (loadMeshes fs (spinnerStep project) project.meshes
                (initState project sc))))))) with ⟨tc, htc, hTc⟩
  have hfin : (finalizeImport (entitySteps fs project (initState project sc))).trace
      = (loadCameras fs (spinnerStep project) project.cameras
          (loadLights fs (spinnerStep project) project.lights
            (loadTextures fs (spinnerStep project) project.textures
              (loadMaterials fs (spinnerStep project) project.materials
                (loadPhysics fs
                  (loadTransformNodes fs (project.transformNodes.getD [])
                    (loadMeshes fs (spinnerStep project) project.meshes
                      (initState project sc)))))))).trace := rfl
  have hs0 : (initState project sc).trace = [] := rfl
  have htotal : (finalizeImport (entitySteps fs project (initState project sc))).trace
      = tm ++ (tt ++ (tmat ++ (ttex ++ (tl ++ tc)))) := by
    rw [hfin, htc, htl, htex, htmat, loadPhysics_trace, htt, htm, hs0]
    simp [List.append_assoc]
  have hneutral : ∀ (l : List Event),
      (∀ e ∈ l, (!(e.isMeshAttempt || e.isMaterialAttempt)) = true) →
      l.filter Event.isMeshAttempt = [] ∧ l.filter Event.isMaterialAttempt = [] ∧
      l.filter (fun e => e.isMeshAttempt || e.isMaterialAttempt) = [] := by
    intro l hl
    refine ⟨filter_all_false (fun e he => ?_), filter_all_false (fun e he => ?_),
      filter_all_false (fun e he => ?_)⟩
    · have h2 := hl e he; simp at h2; exact h2.1
    · have h2 := hl e he; simp at h2; exact h2.2
    · have h2 := hl e he; simp at h2; simp [h2.1, h2.2]
  obtain ⟨ht1, ht2, ht3⟩ := hneutral tt hTt
  obtain ⟨hx1, hx2, hx3⟩ := hneutral ttex hTtex
  obtain ⟨hl1, hl2, hl3⟩ := hneutral tl hTl
  obtain ⟨hc1, hc2, hc3⟩ := hneutral tc hTc
  have fm1 : tm.filter Event.isMeshAttempt = tm := filter_all_true hTm
  have fm2 : tm.filter Event.isMaterialAttempt = [] :=
    filter_all_false (fun e he => mesh_not_material (hTm e he))
  have fm3 : tm.filter (fun e => e.isMeshAttempt || e.isMaterialAttempt) = tm :=
    filter_all_true (fun e he => by simp [hTm e he])
  have fa1 : tmat.filter Event.isMeshAttempt = [] :=
    filter_all_false (fun e he => material_not_mesh (hTmat e he))
  have fa2 : tmat.filter Event.isMaterialAttempt = tmat := filter_all_true hTmat
  have fa3 : tmat.filter (fun e => e.isMeshAttempt || e.isMaterialAttempt) = tmat :=
    filter_all_true (fun e he => by simp [hTmat e he])
  rw [htotal]
  simp only [List.filter_append, fm1, fm2, fm3, ht1, ht2, ht3, fa1, fa2, fa3,
    hx1, hx2, hx3, hl1, hl2, hl3, hc1, hc2, hc3]
  simp

/-- Witness for C8 at a one-mesh, one-material project. -/
theorem c8_meshesBeforeMaterials_witness :
    ((_ImportProject orderFS {}).toOption.getD emptyState).trace.filter
        (fun e => e.isMeshAttempt || e.isMaterialAttempt) =
      ((_ImportProject orderFS {}).toOption.getD emptyState).trace.filter
        Event.isMeshAttempt ++
      ((_ImportProject orderFS {}).toOption.getD emptyState).trace.filter
        Event.isMaterialAttempt ∧
    (loadMaterials orderFS 1 [] emptyState).scene.meshes.map SNode.id =
      emptyState.scene.meshes.map SNode.id :=
  c8_meshesBeforeMaterials orderFS {}
    ((_ImportProject orderFS {}).toOption.getD emptyState) (by rfl)
    orderFS 1 [] emptyState

/-! ### C2: progress monotonicity and the dedup-skip leak -/

@[simp] theorem initState_spinner (p : IProject) (sc : Scene) :
    (initState p sc).spinner = [0] := rfl

@[simp] theorem initState_spinnerValue (p : IProject) (sc : Scene) :
    (initState p sc).spinnerValue = 0 := rfl

@[simp] theorem initState_texSkips (p : IProject) (sc : Scene) :
    (initState p sc).texSkips = 0 := rfl

@[simp] theorem finalizeImport_spinner (st : ImportState) :
    (finalizeImport st).spinner = st.spinner := rfl

@[simp] theorem finalizeImport_spinnerValue (st : ImportState) :
    (finalizeImport st).spinnerValue = st.spinnerValue := rfl

@[simp] theorem finalizeImport_texSkips (st : ImportState) :
    (finalizeImport st).texSkips = st.texSkips := rfl

theorem SpinInv_transport {st st' : ImportState} (h1 : st'.spinner = st.spinner)
    (h2 : st'.spinnerValue = st.spinnerValue) (h : SpinInv st) : SpinInv st' := by
  unfold SpinInv at *
  rw [h1, h2]
  exact h

theorem spinnerTick_inv {step : Rat} {st : ImportState} (hstep : 0 ≤ step)
    (h : SpinInv st) : SpinInv (spinnerTick step st) := by
  obtain ⟨hlast, hpw, hub⟩ := h
  refine ⟨?_, ?_, ?_⟩
  · rw [spinnerTick_spinner, spinnerTick_spinnerValue, List.getLast?_concat]
  · rw [spinnerTick_spinner]
    apply List.pairwise_append.mpr
    refine ⟨hpw, List.pairwise_singleton _ _, ?_⟩
    intro a ha b hb
    simp only [List.mem_singleton] at hb
    subst hb
    exact le_trans (hub a ha) (le_add_of_nonneg_right hstep)
  · intro x hx
    rw [spinnerTick_spinner] at hx
    rw [spinnerTick_spinnerValue]
    rcases List.mem_append.mp hx with h1 | h1
    · exact le_trans (hub x h1) (le_add_of_nonneg_right hstep)
    · simp only [List.mem_singleton] at h1
      subst h1
      exact le_refl _

theorem foldl_tick_inv {α : Type} (f : α → ImportState → ImportState)
    (ev : α → Event) (step : Rat)
    (hf : ∀ a st, (f a st).spinner = st.spinner ∧ (f a st).spinnerValue = st.spinnerValue)
    (hstep : 0 ≤ step) :
    ∀ (l : List α) (st : ImportState), SpinInv st →
    SpinInv (l.foldl (fun st a => spinnerTick step (f a (pushEvent (ev a) st))) st) := by
  intro l
  induction l with
  | nil => exact fun st h => h
  | cons a rest ih =>
    intro st h
    apply ih
    apply spinnerTick_inv hstep
    exact SpinInv_transport
      ((hf a (pushEvent (ev a) st)).1.trans (pushEvent_spinner _ _))
      ((hf a (pushEvent (ev a) st)).2.trans (pushEvent_spinnerValue _ _)) h

theorem foldl_tick_budget {α : Type} (f : α → ImportState → ImportState)
    (ev : α → Event) (step : Rat)
    (hf : ∀ a st, (f a st).spinnerValue = st.spinnerValue ∧ (f a st).texSkips = st.texSkips) :
    ∀ (l : List α) (st : ImportState),
    spinBudget step (l.foldl (fun st a => spinnerTick step (f a (pushEvent (ev a) st))) st)
      = spinBudget step st + l.length * step := by
  intro l
  induction l with
  | nil => intro st; simp
  | cons a rest ih =>
    intro st
    have hone : spinBudget step (spinnerTick step (f a (pushEvent (ev a) st)))
        = spinBudget step st + step := by
      unfold spinBudget
      rw [spinnerTick_spinnerValue, spinnerTick_texSkips,
        (hf a (pushEvent (ev a) st)).1, (hf a (pushEvent (ev a) st)).2,
        pushEvent_spinnerValue, pushEvent_texSkips]
      ring
    show spinBudget step (rest.foldl _ (spinnerTick step (f a (pushEvent (ev a) st))))
      = spinBudget step st + (a :: rest).length * step
    rw [ih, hone]
    simp only [List.length_cons]
    push_cast
    ring

theorem foldl_spin_const {α : Type} (g : α → ImportState → ImportState)
    (hg : ∀ a st, (g a st).spinner = st.spinner ∧ (g a st).spinnerValue = st.spinnerValue ∧
      (g a st).texSkips = st.texSkips) :
    ∀ (l : List α) (st : ImportState),
    (l.foldl (fun st a => g a st) st).spinner = st.spinner ∧
    (l.foldl (fun st a => g a st) st).spinnerValue = st.spinnerValue ∧
    (l.foldl (fun st a => g a st) st).texSkips = st.texSkips := by
  intro l
  induction l with
  | nil => intro st; exact ⟨rfl, rfl, rfl⟩
  | cons a rest ih =>
    intro st
    have h1 := hg a st
    have h2 := ih (g a st)
    exact ⟨h2.1.trans h1.1, h2.2.1.trans h1.2.1, h2.2.2.trans h1.2.2⟩

theorem transformBody_spin (fs : ProjectFS) (t : String) (st : ImportState) :
    (transformBody fs t st).spinner = st.spinner ∧
    (transformBody fs t st).spinnerValue = st.spinnerValue ∧
    (transformBody fs t st).texSkips = st.texSkips := by
  cases hf : fs.transformFile t with
  | error e => simp [transformBody, hf]
  | ok p => simp [transformBody, hf]

theorem bindBody_spin (matName bm : String) (st : ImportState) :
    (bindBody matName bm st).spinner = st.spinner ∧
    (bindBody matName bm st).spinnerValue = st.spinnerValue ∧
    (bindBody matName bm st).texSkips = st.texSkips := by
  cases hg : getMeshByID st.scene bm with
  | some q => simp [bindBody, hg]
  | none => simp [bindBody, hg]

theorem bindMeshes_spin (matName : String) :
    ∀ (bms : List String) (st : ImportState),
    (bindMeshes matName bms st).spinner = st.spinner ∧
    (bindMeshes matName bms st).spinnerValue = st.spinnerValue ∧
    (bindMeshes matName bms st).texSkips = st.texSkips :=
  foldl_spin_const (fun bm st => bindBody matName bm st)
    (fun bm st => bindBody_spin matName bm st)

theorem materialBody_spin (fs : ProjectFS) (m : MaterialEntry) (st : ImportState) :
    (materialBody fs m st).spinner = st.spinner ∧
    (materialBody fs m st).spinnerValue = st.spinnerValue ∧
    (materialBody fs m st).texSkips = st.texSkips := by
  cases hf : fs.materialFile m.json with
  | error e => simp [materialBody, hf]
  | ok p =>
    have hb := bindMeshes_spin m.json m.bindedMeshes
    simp [materialBody, hf]
    refine ⟨(hb _).1.trans ?_, (hb _).2.1.trans ?_, (hb _).2.2.trans ?_⟩ <;> simp

theorem lightBody_spin (fs : ProjectFS) (l : LightEntry) (st : ImportState) :
    (lightBody fs l st).spinner = st.spinner ∧
    (lightBody fs l st).spinnerValue = st.spinnerValue ∧
    (lightBody fs l st).texSkips = st.texSkips := by
  cases hf : fs.lightFile l.json with
  | error e => simp [lightBody, hf]
  | ok p =>
    cases hs : l.shadowGenerator with
    | none => simp [lightBody, hf, hs]
    | some sg =>
      cases hw : fs.shadowFile sg with
      | error e => simp [lightBody, hf, hs, hw]
      | ok u => simp [lightBody, hf, hs, hw]

theorem cameraBody_spin (fs : ProjectFS) (c : String) (st : ImportState) :
    (cameraBody fs c st).spinner = st.spinner ∧
    (cameraBody fs c st).spinnerValue = st.spinnerValue ∧
    (cameraBody fs c st).texSkips = st.texSkips := by
  cases hf : fs.cameraFile c with
  | error e => simp [cameraBody, hf]
  | ok p => simp [cameraBody, hf]

theorem loadPhysics_spin (fs : ProjectFS) (st : ImportState) :
    (loadPhysics fs st).spinner = st.spinner ∧
    (loadPhysics fs st).spinnerValue = st.spinnerValue ∧
    (loadPhysics fs st).texSkips = st.texSkips := by
  cases hp : fs.physicsEngine with
  | none => simp [loadPhysics, hp]
  | some imp =>
    simp only [loadPhysics, hp]
    exact foldl_spin_const
      (fun m acc =>
        let nm := m.name
        match imp m with
        | .ok _ => pushLog [LogEvent.info s!"Parsed physics impostor for mesh \"{nm}\""] acc
        | .error _ => pushLog [LogEvent.error s!"Failed to set physics impostor for mesh \"{nm}\""] acc)
      (fun a acc => by
        cases himp : imp a with
        | ok u => simp [himp]
        | error e => simp [himp])
      st.scene.meshes st

theorem loadTransformNodes_spin (fs : ProjectFS) (names : List String) (st : ImportState) :
    (loadTransformNodes fs names st).spinner = st.spinner ∧
    (loadTransformNodes fs names st).spinnerValue = st.spinnerValue ∧
    (loadTransformNodes fs names st).texSkips = st.texSkips :=
  foldl_spin_const (fun t st => transformBody fs t (pushEvent (.transformAttempt t) st))
    (fun a st => by
      have h := transformBody_spin fs a (pushEvent (.transformAttempt a) st)
      exact ⟨h.1.trans (pushEvent_spinner _ _), h.2.1.trans (pushEvent_spinnerValue _ _),
        h.2.2.trans (pushEvent_texSkips _ _)⟩)
    names st

theorem loadMeshes_spin_inv (fs : ProjectFS) (step : Rat) (names : List String)
    (st : ImportState) (hstep : 0 ≤ step) (h : SpinInv st) :
    SpinInv (loadMeshes fs step names st) :=
  foldl_tick_inv (fun m st => meshBody fs m st) (fun m => .meshAttempt m) step
    (fun a st => ⟨(meshBody_spin fs a st).1, (meshBody_spin fs a st).2.1⟩)
    hstep names st h

theorem loadMeshes_budget (fs : ProjectFS) (step : Rat) (names : List String)
    (st : ImportState) :
    spinBudget step (loadMeshes fs step names st) =
      spinBudget step st + names.length * step :=
  foldl_tick_budget (fun m st => meshBody fs m st) (fun m => .meshAttempt m) step
    (fun a st => ⟨(meshBody_spin fs a st).2.1, (meshBody_spin fs a st).2.2⟩) names st

theorem loadMaterials_spin_inv (fs : ProjectFS) (step : Rat)
    (entries : List MaterialEntry) (st : ImportState) (hstep : 0 ≤ step)
    (h : SpinInv st) : SpinInv (loadMaterials fs step entries st) :=
  foldl_tick_inv (fun m st => materialBody fs m st) (fun m => .materialAttempt m.json) step
    (fun a st => ⟨(materialBody_spin fs a st).1, (materialBody_spin fs a st).2.1⟩)
    hstep entries st h

theorem loadMaterials_budget (fs : ProjectFS) (step : Rat)
    (entries : List MaterialEntry) (st : ImportState) :
    spinBudget step (loadMaterials fs step entries st) =
      spinBudget step st + entries.length * step :=
  foldl_tick_budget (fun m st => materialBody fs m st) (fun m => .materialAttempt m.json) step
    (fun a st => ⟨(materialBody_spin fs a st).2.1, (materialBody_spin fs a st).2.2⟩) entries st

theorem loadLights_spin_inv (fs : ProjectFS) (step : Rat)
    (entries : List LightEntry) (st : ImportState) (hstep : 0 ≤ step)
    (h : SpinInv st) : SpinInv (loadLights fs step entries st) :=
  foldl_tick_inv (fun l st => lightBody fs l st) (fun l => .lightAttempt l.json) step
    (fun a st => ⟨(lightBody_spin fs a st).1, (lightBody_spin fs a st).2.1⟩)
    hstep entries st h

theorem loadLights_budget (fs : ProjectFS) (step : Rat)
    (entries : List LightEntry) (st : ImportState) :
    spinBudget step (loadLights fs step entries st) =
      spinBudget step st + entries.length * step :=
  foldl_tick_budget (fun l st => lightBody fs l st) (fun l => .lightAttempt l.json) step
    (fun a st => ⟨(lightBody_spin fs a st).2.1, (lightBody_spin fs a st).2.2⟩) entries st

theorem loadCameras_spin_inv (fs : ProjectFS) (step : Rat) (names : List String)
    (st : ImportState) (hstep : 0 ≤ step) (h : SpinInv st) :
    SpinInv (loadCameras fs step names st) :=
  foldl_tick_inv (fun c st => cameraBody fs c st) (fun c => .cameraAttempt c) step
    (fun a st => ⟨(cameraBody_spin fs a st).1, (cameraBody_spin fs a st).2.1⟩)
    hstep names st h

theorem loadCameras_budget (fs : ProjectFS) (step : Rat) (names : List String)
    (st : ImportState) :
    spinBudget step (loadCameras fs step names st) =
      spinBudget step st + names.length * step :=
  foldl_tick_budget (fun c st => cameraBody fs c st) (fun c => .cameraAttempt c) step
    (fun a st => ⟨(cameraBody_spin fs a st).2.1, (cameraBody_spin fs a st).2.2⟩) names st

theorem textureBody_inv (fs : ProjectFS) (step : Rat) (t : String)
    (st : ImportState) (hstep : 0 ≤ step) (h : SpinInv st) :
    SpinInv (textureBody fs step t st) := by
  cases hf : fs.textureFile t with
  | error e =>
    have heq : textureBody fs step t st =
        spinnerTick step (pushLog [LogEvent.error (textureFailMsg t)] st) := by
      simp [textureBody, hf]
    rw [heq]
    exact spinnerTick_inv hstep (SpinInv_transport (by simp) (by simp) h)
  | ok p =>
    cases hg : getTextureByUniqueID st.scene p.uniqueId with
    | some tex =>
      have heq : textureBody fs step t st = { st with texSkips := st.texSkips + 1 } := by
        simp [textureBody, hf, hg]
      rw [heq]
      exact SpinInv_transport rfl rfl h
    | none =>
      by_cases hok : p.parseOk = true
      · have heq : textureBody fs step t st =
            spinnerTick step (pushLog [LogEvent.info s!"Parsed texture \"{t}\""]
              { st with scene := { st.scene with textures := st.scene.textures ++
                  [{ uniqueId := p.uniqueId, editorName := p.editorName }] } }) := by
          simp [textureBody, hf, hg, hok]
        rw [heq]
        exact spinnerTick_inv hstep (SpinInv_transport (by simp) (by simp) h)
      · have hokf : p.parseOk = false := by simpa using hok
        have heq : textureBody fs step t st =
            spinnerTick step (pushLog [LogEvent.error (textureFailMsg t)] st) := by
          simp [textureBody, hf, hg, hokf]
        rw [heq]
        exact spinnerTick_inv hstep (SpinInv_transport (by simp) (by simp) h)

theorem textureBody_budget (fs : ProjectFS) (step : Rat) (t : String)
    (st : ImportState) :
    spinBudget step (textureBody fs step t st) = spinBudget step st + step := by
  cases hf : fs.textureFile t with
  | error e =>
    unfold spinBudget
    simp [textureBody, hf]
    ring
  | ok p =>
    cases hg : getTextureByUniqueID st.scene p.uniqueId with
    | some tex =>
      unfold spinBudget
      simp [textureBody, hf, hg]
      ring
    | none =>
      by_cases hok : p.parseOk = true
      · unfold spinBudget
        simp [textureBody, hf, hg, hok]
        ring
      · have hokf : p.parseOk = false := by simpa using hok
        unfold spinBudget
        simp [textureBody, hf, hg, hokf]
        ring

theorem loadTextures_spin_inv (fs : ProjectFS) (step : Rat) (names : List String)
    (st : ImportState) (hstep : 0 ≤ step) (h : SpinInv st) :
    SpinInv (loadTextures fs step names st) := by
  induction names generalizing st with
  | nil => exact h
  | cons t rest ih =>
    rw [loadTextures_cons]
    apply ih
    apply textureBody_inv fs step t _ hstep
    exact SpinInv_transport (by simp) (by simp) h

theorem loadTextures_budget (fs : ProjectFS) (step : Rat) :
    ∀ (names : List String) (st : ImportState),
    spinBudget step (loadTextures fs step names st) =
      spinBudget step st + names.length * step := by
  intro names
  induction names with
  | nil => intro st; simp [loadTextures]
  | cons t rest ih =>
    intro st
    rw [loadTextures_cons, ih, textureBody_budget]
    have hpe : spinBudget step (pushEvent (.textureAttempt t) st) = spinBudget step st := by
      unfold spinBudget
      simp
    rw [hpe]
    simp only [List.length_cons]
    push_cast
    ring

/-- Counterexample to **C2** as stated: with two texture entries sharing
unique id 1, the import completes and both entities are attempted (the trace
holds `totalUnits` attempts), yet every reported progress value stays
strictly below 1.0 — the `continue` of the dedup skip jumps over the spinner
update of line 167. -/
theorem c2_progress_counterexample :
    (_ImportProject dupTexFS {}).isOk = true ∧
    ((_ImportProject dupTexFS {}).toOption.getD emptyState).trace.length =
      totalUnits dupTexProject ∧
    ((_ImportProject dupTexFS {}).toOption.getD emptyState).spinner =
      [0, 0 + spinnerStep dupTexProject] ∧
    0 + spinnerStep dupTexProject < 1 := by
  refine ⟨rfl, rfl, rfl, ?_⟩
  simp [spinnerStep, totalUnits, dupTexProject]
  norm_num

/-- **C2**, amended: over any completed import the reported progress
fraction is non-decreasing, and the final reported value is
`1 − texSkips · (1/totalUnits)` where `texSkips` counts the texture entries
skipped by the unique-id dedup — each skipped entry withholds exactly one
progress unit; the fraction reaches 1.0 exactly when no texture entry was
skipped (failed entities do advance progress). -/
theorem c2_progressMonotone_amended (fs : ProjectFS) (sc : Scene)
    (project : IProject) (st : ImportState)
    (hm : fs.manifest = .ok project)
    (hok : _ImportProject fs sc = .ok st)
    (hpos : 0 < totalUnits project) :
    List.Pairwise (fun a b => a ≤ b) st.spinner ∧
    st.spinner.getLast? = some (1 - st.texSkips * spinnerStep project) ∧
    (st.texSkips = 0 → st.spinner.getLast? = some 1) := by
  rcases _ImportProject_ok_inv hok with ⟨project', hm', hst⟩
  rw [hm] at hm'
  obtain rfl : project = project' := Except.ok.inj hm'
  subst hst
  have hstep : (0 : Rat) ≤ spinnerStep project := by
    unfold spinnerStep
    exact div_nonneg zero_le_one (by positivity)
  have hinv0 : SpinInv (initState project sc) := by
    refine ⟨rfl, List.pairwise_singleton _ _, ?_⟩
    intro x hx
    simp only [initState_spinner, List.mem_singleton] at hx
    subst hx
    simp
  have hinv : SpinInv (entitySteps fs project (initState project sc)) := by
    simp only [entitySteps]
    apply loadCameras_spin_inv _ _ _ _ hstep
    apply loadLights_spin_inv _ _ _ _ hstep
    apply loadTextures_spin_inv _ _ _ _ hstep
    apply loadMaterials_spin_inv _ _ _ _ hstep
    have hphys := loadPhysics_spin fs
      (loadTransformNodes fs (project.transformNodes.getD [])
        (loadMeshes fs (spinnerStep project) project.meshes (initState project sc)))
    apply SpinInv_transport hphys.1 hphys.2.1
    have htn := loadTransformNodes_spin fs (project.transformNodes.getD [])
      (loadMeshes fs (spinnerStep project) project.meshes (initState project sc))
    apply SpinInv_transport htn.1 htn.2.1
    exact loadMeshes_spin_inv _ _ _ _ hstep hinv0
  have hbudget : spinBudget (spinnerStep project)
      (entitySteps fs project (initState project sc))
      = (totalUnits project) * spinnerStep project := by
    have hphysb : ∀ st2 : ImportState, spinBudget (spinnerStep project) (loadPhysics fs st2)
        = spinBudget (spinnerStep project) st2 := by
      intro st2
      have h2 := loadPhysics_spin fs st2
      unfold spinBudget
      rw [h2.2.1, h2.2.2]
    have htnb : ∀ st2 : ImportState, spinBudget (spinnerStep project)
        (loadTransformNodes fs (project.transformNodes.getD []) st2)
        = spinBudget (spinnerStep project) st2 := by
      intro st2
      have h2 := loadTransformNodes_spin fs (project.transformNodes.getD []) st2
      unfold spinBudget
      rw [h2.2.1, h2.2.2]
    have h0 : spinBudget (spinnerStep project) (initState project sc) = 0 := by
      unfold spinBudget
      simp
    simp only [entitySteps]
    rw [loadCameras_budget, loadLights_budget, loadTextures_budget,
      loadMaterials_budget, hphysb, htnb, loadMeshes_budget, h0]
    unfold totalUnits
    push_cast
    ring
  have htotal1 : ((totalUnits project : Nat) : Rat) * spinnerStep project = 1 := by
    unfold spinnerStep
    rw [mul_one_div]
    apply div_self
    exact_mod_cast Nat.pos_iff_ne_zero.mp hpos
  have hval : (entitySteps fs project (initState project sc)).spinnerValue
      = 1 - (entitySteps fs project (initState project sc)).texSkips * spinnerStep project := by
    have hb := hbudget
    unfold spinBudget at hb
    rw [htotal1] at hb
    linarith
  refine ⟨?_, ?_, ?_⟩
  · rw [finalizeImport_spinner]
    exact hinv.2.1
  · rw [finalizeImport_spinner, finalizeImport_texSkips, hinv.1, hval]
  · intro hz
    rw [finalizeImport_texSkips] at hz
    rw [finalizeImport_spinner, hinv.1, hval, hz]
    simp

/-- Witness for the amended C2: a one-entity project (whose single mesh even
fails to load) reports a final progress of exactly 1. -/
theorem c2_progressMonotone_amended_witness :
    ((_ImportProject oneMeshFS {}).toOption.getD emptyState).spinner.getLast? = some 1 := by
  have h := c2_progressMonotone_amended oneMeshFS {} oneMeshProject
    ((_ImportProject oneMeshFS {}).toOption.getD emptyState) rfl (by rfl) (by decide)
  exact h.2.2 rfl
